import Mathlib

/-
Verification development for the ROS2 graph backend service
(src/backend/ros2_graph_server.py).

The Python service is shallow-embedded: pure computation is translated to
executable Lean definitions, Python float values are modeled as exact
rationals extended with infinities and NaN (`FVal`), Python exceptions are
modeled with `Except String`, and the external libraries the code calls
(cv2 codecs, numpy's random sampler, trigonometric functions) are modeled
as oracle fields of an `Env` record, so every theorem is quantified over
all possible behaviours of those libraries.
-/

set_option maxHeartbeats 1000000
set_option maxRecDepth 8000

namespace Ros2Graph

/-! ### Extended float values

Python floats are modeled as exact rationals extended with the three
non-finite values.  Arithmetic follows IEEE semantics on the non-finite
values; on finite values it is exact rational arithmetic. -/

inductive FVal where
  | fin : ℚ → FVal
  | inf : FVal
  | ninf : FVal
  | nan : FVal
deriving DecidableEq

namespace FVal

def isFiniteB : FVal → Bool
  | .fin _ => true
  | _ => false

/-- Elementwise `> 0` as numpy evaluates it (False on NaN, True on +inf). -/
def posB : FVal → Bool
  | .fin q => decide (0 < q)
  | .inf => true
  | .ninf => false
  | .nan => false

def fsub : FVal → FVal → FVal
  | .fin a, .fin b => .fin (a - b)
  | .fin _, .inf => .ninf
  | .fin _, .ninf => .inf
  | .inf, .fin _ => .inf
  | .ninf, .fin _ => .ninf
  | .inf, .ninf => .inf
  | .ninf, .inf => .ninf
  | .inf, .inf => .nan
  | .ninf, .ninf => .nan
  | _, .nan => .nan
  | .nan, _ => .nan

def fmul : FVal → FVal → FVal
  | .fin a, .fin b => .fin (a * b)
  | .fin a, .inf => if 0 < a then .inf else if a < 0 then .ninf else .nan
  | .fin a, .ninf => if 0 < a then .ninf else if a < 0 then .inf else .nan
  | .inf, .fin b => if 0 < b then .inf else if b < 0 then .ninf else .nan
  | .ninf, .fin b => if 0 < b then .ninf else if b < 0 then .inf else .nan
  | .inf, .inf => .inf
  | .inf, .ninf => .ninf
  | .ninf, .inf => .ninf
  | .ninf, .ninf => .inf
  | _, .nan => .nan
  | .nan, _ => .nan

def fdiv : FVal → FVal → FVal
  | .fin a, .fin b =>
      if b = 0 then (if 0 < a then .inf else if a < 0 then .ninf else .nan)
      else .fin (a / b)
  | .fin _, .inf => .fin 0
  | .fin _, .ninf => .fin 0
  | .inf, .fin b => if b < 0 then .ninf else .inf
  | .ninf, .fin b => if b < 0 then .inf else .ninf
  | .inf, .inf => .nan
  | .inf, .ninf => .nan
  | .ninf, .inf => .nan
  | .ninf, .ninf => .nan
  | _, .nan => .nan
  | .nan, _ => .nan

/-- `np.clip(v, 0, 255).astype(np.uint8)`: clamp then truncate toward zero
(NaN casts to 0 on the platforms the service targets). -/
def toU8clip : FVal → Nat
  | .fin q => if q < 0 then 0 else if (255 : ℚ) < q then 255 else q.floor.toNat
  | .inf => 255
  | .ninf => 0
  | .nan => 0

/-- Exact cast to a nonnegative integer for values that are known to be
integral pixels (uint8/uint16 samples kept as floats). -/
def toNatFloor : FVal → Nat
  | .fin q => q.floor.toNat
  | _ => 0

/-- Python `str(...)` of a non-finite float. -/
def reprStr : FVal → String
  | .fin _ => ""
  | .inf => "inf"
  | .ninf => "-inf"
  | .nan => "nan"

end FVal

/-! ### JSON-safe trees

The codomain of the transcoder: values built only from maps, sequences,
strings, numbers, booleans and null. -/

inductive Json where
  | null : Json
  | jb : Bool → Json
  | ji : Int → Json
  | jq : ℚ → Json
  | js : String → Json
  | ja : List Json → Json
  | jo : List (String × Json) → Json

def jsonLookup (j : Json) (k : String) : Option Json :=
  match j with
  | .jo fields => fields.lookup k
  | _ => none

/-! ### Byte-level helpers (struct.unpack / numpy views) -/

/-- Little-endian accumulation of a byte list into a natural number. -/
def leNat : List Nat → Nat
  | [] => 0
  | b :: rest => b % 256 + 256 * leNat rest

/-- IEEE-754 binary32 decoding of 4 little-endian bytes, exactly
(`struct.unpack('<f', ...)`, numpy `.view(np.float32)`). -/
def decodeF32 (bs : List Nat) : FVal :=
  let bits : Nat := leNat (bs.take 4)
  let sgn : Nat := bits / 2 ^ 31
  let ex : Nat := bits / 2 ^ 23 % 256
  let fr : Nat := bits % 2 ^ 23
  if ex = 255 then
    if fr = 0 then (if sgn = 1 then .ninf else .inf) else .nan
  else
    let mag : ℚ :=
      if ex = 0 then (fr : ℚ) / 2 ^ 149
      else ((2 ^ 23 + fr : ℚ)) * (2 : ℚ) ^ ((ex : ℤ) - 150)
    .fin (if sgn = 1 then -mag else mag)

/-- IEEE-754 binary64 decoding of 8 little-endian bytes, exactly. -/
def decodeF64 (bs : List Nat) : FVal :=
  let bits : Nat := leNat (bs.take 8)
  let sgn : Nat := bits / 2 ^ 63
  let ex : Nat := bits / 2 ^ 52 % 2048
  let fr : Nat := bits % 2 ^ 52
  if ex = 2047 then
    if fr = 0 then (if sgn = 1 then .ninf else .inf) else .nan
  else
    let mag : ℚ :=
      if ex = 0 then (fr : ℚ) / 2 ^ 1074
      else ((2 ^ 52 + fr : ℚ)) * (2 : ℚ) ^ ((ex : ℤ) - 1075)
    .fin (if sgn = 1 then -mag else mag)

/-- Two's-complement little-endian integer decoding over `n` bytes. -/
def decodeIntLE (signed : Bool) (n : Nat) (bs : List Nat) : Int :=
  let u := leNat (bs.take n)
  if signed ∧ 2 ^ (8 * n - 1) ≤ u then (u : ℤ) - 2 ^ (8 * n) else (u : ℤ)

/-- The numpy dtypes reachable from the PointCloud2 datatype codes and the
raw-image encoding table. -/
inductive NpDtype where
  | i8 | u8 | i16 | u16 | i32 | u32 | f32 | f64
deriving DecidableEq

def dtypeSize : NpDtype → Nat
  | .i8 => 1 | .u8 => 1 | .i16 => 2 | .u16 => 2
  | .i32 => 4 | .u32 => 4 | .f32 => 4 | .f64 => 8

/-- `DTYPE_MAP` from `_extract_pointcloud_data` (default `np.float32`). -/
def DTYPE_MAP (d : Nat) : NpDtype :=
  match d with
  | 1 => .i8 | 2 => .u8 | 3 => .i16 | 4 => .u16
  | 5 => .i32 | 6 => .u32 | 7 => .f32 | 8 => .f64
  | _ => .f32

/-- Reinterpret a byte slice as one scalar of the given dtype. -/
def readDtype (dt : NpDtype) (bs : List Nat) : FVal :=
  match dt with
  | .i8 => .fin (decodeIntLE true 1 bs : ℤ)
  | .u8 => .fin (decodeIntLE false 1 bs : ℤ)
  | .i16 => .fin (decodeIntLE true 2 bs : ℤ)
  | .u16 => .fin (decodeIntLE false 2 bs : ℤ)
  | .i32 => .fin (decodeIntLE true 4 bs : ℤ)
  | .u32 => .fin (decodeIntLE false 4 bs : ℤ)
  | .f32 => decodeF32 bs
  | .f64 => decodeF64 bs

/-! ### Substring matching (Python `in` on lowercased format strings) -/

def listHasPre : List Char → List Char → Bool
  | [], _ => true
  | _ :: _, [] => false
  | a :: as, b :: bs => a = b && listHasPre as bs

def listHasSub : List Char → List Char → Bool
  | pat, [] => pat.isEmpty
  | pat, x :: xs => listHasPre pat (x :: xs) || listHasSub pat xs

/-- Python `pat in s` on strings. -/
def strContainsSub (s pat : String) : Bool :=
  listHasSub pat.toList s.toList

/-- Python `str.lower()` (ASCII case folding, as cv2 format strings use). -/
def strLower (s : String) : String :=
  String.mk (s.toList.map Char.toLower)

/-! ### base64.b64encode -/

def b64Alphabet : List Char :=
  "ABCDEFGHIJKLMNOPQRSTUVWXYZabcdefghijklmnopqrstuvwxyz0123456789+/".toList

def b64Char (n : Nat) : Char := b64Alphabet.getD n 'A'

def b64encode : List Nat → String
  | [] => ""
  | [a] =>
      String.mk [b64Char (a / 4), b64Char (a % 4 * 16), '=', '=']
  | [a, b] =>
      String.mk [b64Char (a / 4), b64Char (a % 4 * 16 + b / 16), b64Char (b % 16 * 4), '=']
  | a :: b :: c :: rest =>
      String.mk [b64Char (a / 4), b64Char (a % 4 * 16 + b / 16),
                 b64Char (b % 16 * 4 + c / 64), b64Char (c % 64)]
        ++ b64encode rest

/-! ### Min/max over rational lists (numpy `.min()` / `.max()` on finite data) -/

def listMin : List ℚ → ℚ
  | [] => 0
  | x :: xs => xs.foldl min x

def listMax : List ℚ → ℚ
  | [] => 0
  | x :: xs => xs.foldl max x

end Ros2Graph

namespace Ros2Graph

/-! ### The message data model

A typed ROS2 message is either one of the four specially handled sensor
shapes or a generic bag of named field values; field values are the
primitives the rclpy binding produces.  Headers of the sensor messages are
generic messages (std_msgs/Header), stored as their field list. -/

/-- One entry of `PointCloud2.fields`. -/
structure PCField where
  name : String
  offset : Nat
  datatype : Nat
  count : Nat

structure PointCloud2Msg where
  height : Nat
  width : Nat
  fields : List PCField
  point_step : Nat
  row_step : Nat
  is_dense : Bool
  data : List Nat

structure LaserScanMsg where
  angle_min : ℚ
  angle_max : ℚ
  angle_increment : ℚ
  range_min : ℚ
  range_max : ℚ
  ranges : List FVal
  intensities : List ℚ

mutual
inductive RosMsg where
  | compressedImage (format : String) (data : List Nat) (hdr : List (String × Value)) : RosMsg
  | rawImage (encoding : String) (width height step : Nat) (data : List Nat)
      (hdr : List (String × Value)) : RosMsg
  | pointCloud2 (pc : PointCloud2Msg) (hdr : List (String × Value)) : RosMsg
  | laserScan (scan : LaserScanMsg) (hdr : List (String × Value)) : RosMsg
  | generic (fields : List (String × Value)) : RosMsg

inductive Value where
  | vmsg (m : RosMsg) : Value
  | vbytes (bs : List Nat) : Value
  | varr (xs : List Int) : Value
  | vlist (xs : List Value) : Value
  | vfloat (f : FVal) : Value
  | vint (n : Int) : Value
  | vstr (s : String) : Value
  | vbool (b : Bool) : Value
  | vnull : Value
end

/-! ### The environment of external libraries

cv2 codecs, numpy's random sampler and trigonometric functions are external
to the repository; they are modeled as oracles and every theorem quantifies
over them.  `Except.error` models the call raising an exception. -/

/-- Result of `cv2.imdecode(..., IMREAD_ANYCOLOR | IMREAD_ANYDEPTH)`:
a pixel grid with its dtype; `twoDim` records whether the decoded array is
single-channel (`len(shape) == 2`). -/
structure DecodedImg where
  dtype : NpDtype
  pixels : List FVal
  twoDim : Bool

structure Env where
  /-- `cv2.imdecode` on a PNG payload; `none` models the `None` return. -/
  pngDecode : List Nat → Option DecodedImg
  /-- `cv2.applyColorMap(..., COLORMAP_JET)` per 8-bit value (BGR triple). -/
  colorMapJet : Nat → Nat × Nat × Nat
  /-- `cv2.applyColorMap(..., COLORMAP_TURBO)` per 8-bit value (BGR triple). -/
  colorMapTurbo : Nat → Nat × Nat × Nat
  /-- `cv2.imencode('.jpg', ...)` on a colormapped (3-channel) image. -/
  jpegEncodeMapped : List (Nat × Nat × Nat) → Except String (List Nat)
  /-- `cv2.imencode('.jpg', ...)` on an image that was not colormapped. -/
  jpegEncodeRaw : List Nat → Except String (List Nat)
  /-- `cv2.cvtColor` channel reordering in `_raw_image_to_dict`. -/
  cvtColor : String → List (List Nat) → List (List Nat)
  /-- `cv2.imencode('.jpg', ...)` at the end of `_raw_image_to_dict`. -/
  jpegEncodeImg : List (List Nat) → Except String (List Nat)
  /-- whether `import numpy / import cv2` succeed inside the depth branch. -/
  hasNumpyCv2 : Bool
  /-- whether `import cv2` succeeds where only cv2 is imported. -/
  hasCv2 : Bool
  /-- whether `import numpy` succeeds in the extraction helpers. -/
  hasNumpy : Bool
  /-- `np.random.choice(n, k, replace=False)`. -/
  sampleIndices : Nat → Nat → List Nat
  /-- `np.cos` on the (finite) angle values. -/
  qcos : ℚ → ℚ
  /-- `np.sin` on the (finite) angle values. -/
  qsin : ℚ → ℚ
  /-- IEEE encoding of one float32 into 4 bytes (`astype(np.float32).tobytes()`). -/
  f32bytes : ℚ → List Nat

/-- `np.random.choice(n, k, replace=False)` always returns exactly `k`
distinct indices below `n` (it raises when `k > n`).  Theorems about the
downsampling step assume this of the sampling oracle. -/
def samplerValid (env : Env) : Prop :=
  ∀ n k, k ≤ n → (env.sampleIndices n k).length = k ∧ ∀ i ∈ env.sampleIndices n k, i < n

/-! ### compressedDepth dequantization and 8-bit normalization
(lines 201-222 of `_message_to_dict`) -/

/-- `depth_float[mask] = depth_quant_a / (decoded[mask] - depth_quant_b)`
with `mask = decoded > 0`; unmasked entries stay zero. -/
def dequantizeDepth (qa qb : FVal) (pixels : List FVal) : List FVal :=
  pixels.map (fun v => if v.posB then FVal.fdiv qa (FVal.fsub v qb) else .fin 0)

/-- The population of the min/max stretch: values that are `> 0` and finite
(`decoded[(decoded > 0) & np.isfinite(decoded)]`). -/
def validPosVals (l : List FVal) : List ℚ :=
  l.filterMap (fun v =>
    match v with
    | .fin q => if 0 < q then some q else none
    | _ => none)

/-- 8-bit display normalization of a non-uint8 depth image:
`(decoded - min) / (max - min) * 255` clipped to `[0, 255]`, all-zero when
the valid population is empty or has a single value. -/
def normalizeDisplay (l : List FVal) : List Nat :=
  let valid := validPosVals l
  if valid.isEmpty then List.replicate l.length 0
  else
    let mn := listMin valid
    let mx := listMax valid
    if mn < mx then
      l.map (fun v =>
        FVal.toU8clip (FVal.fmul (FVal.fdiv (FVal.fsub v (.fin mn)) (.fin (mx - mn))) (.fin 255)))
    else List.replicate l.length 0

/-- The population of the raw-image float stretch: finite values
(`arr[np.isfinite(arr)]`). -/
def validFinVals (l : List FVal) : List ℚ :=
  l.filterMap (fun v => match v with | .fin q => some q | _ => none)

/-- 8-bit normalization of a raw float image (`_raw_image_to_dict`):
same stretch but over all finite values. -/
def normalizeFinite (l : List FVal) : List Nat :=
  let valid := validFinVals l
  if valid.isEmpty then List.replicate l.length 0
  else
    let mn := listMin valid
    let mx := listMax valid
    if mn < mx then
      l.map (fun v =>
        FVal.toU8clip (FVal.fmul (FVal.fdiv (FVal.fsub v (.fin mn)) (.fin (mx - mn))) (.fin 255)))
    else List.replicate l.length 0

end Ros2Graph

namespace Ros2Graph

/-! ### CompressedImage handling (lines 150-267 of `_message_to_dict`) -/

/-- Result of the outermost `except` of the CompressedImage branch. -/
def compressed_image_err (e : String) : Json :=
  .jo [("_msg_type", .js "compressed_image"), ("error", .js e)]

/-- `image_metadata` diagnostic result of the compressedDepth branch. -/
def image_meta_err (fmt0 : String) (size : Nat) (e : String) : Json :=
  .jo [("_msg_type", .js "image_metadata"), ("format", .js fmt0),
       ("data_size", .ji size), ("error", .js e)]

/-- The pass-through compressed-image result (JPEG/PNG/default branches). -/
def std_compressed_image (mime : String) (data : List Nat) (fmt0 : String) (hj : Json) : Json :=
  .jo [("_msg_type", .js "compressed_image"), ("format", .js mime),
       ("data", .js (b64encode data)), ("original_format", .js fmt0), ("header", hj)]

/-- Body of the compressedDepth `try` (lines 173-235): 12-byte header of two
float32 quantization parameters, then a PNG payload decoded by cv2. -/
def compressed_depth_body (env : Env) (fmt fmt0 : String) (data : List Nat) (hj : Json) :
    Except String Json :=
  if ¬ env.hasNumpyCv2 then
    -- `except ImportError` handler
    .ok (image_meta_err fmt0 data.length "Cannot render compressedDepth: numpy/cv2 not available")
  else if data.length ≤ 12 then
    .ok (image_meta_err fmt0 data.length
      ("compressedDepth data too small (" ++ toString data.length ++ " bytes)"))
  else
    let qa := decodeF32 (data.take 4)
    let qb := decodeF32 ((data.drop 4).take 4)
    match env.pngDecode (data.drop 12) with
    | none => .ok (image_meta_err fmt0 data.length "Failed to decode compressedDepth PNG payload")
    | some img =>
      let deq := strContainsSub fmt "32fc1" && img.dtype == .u16
      let pixels := if deq then dequantizeDepth qa qb img.pixels else img.pixels
      let dtp := if deq then NpDtype.f32 else img.dtype
      let display : List Nat :=
        if dtp ≠ .u8 then normalizeDisplay pixels else pixels.map FVal.toNatFloor
      do
        let encoded ←
          if img.twoDim then env.jpegEncodeMapped (display.map env.colorMapJet)
          else env.jpegEncodeRaw display
        .ok (.jo [("_msg_type", .js "compressed_image"), ("format", .js "jpeg"),
                  ("data", .js (b64encode encoded)), ("original_format", .js fmt0),
                  ("header", hj)])

/-- Body of the outer CompressedImage `try` (lines 151-265). -/
def compressed_image_body (env : Env) (fmt0 : String) (data : List Nat) (hj : Json) :
    Except String Json :=
  if data.length = 0 then
    .ok (.jo [("_msg_type", .js "compressed_image"), ("format", .js fmt0),
              ("error", .js ("Empty image data (format: " ++ fmt0 ++
                "). The publisher may be failing to compress."))])
  else
    let fmt := strLower fmt0
    if strContainsSub fmt "jpeg" || strContainsSub fmt "jpg" then
      .ok (std_compressed_image "jpeg" data fmt0 hj)
    else if strContainsSub fmt "compresseddepth" || strContainsSub fmt "tiff" then
      -- the depth branch has its own try/except pair inside the outer try
      .ok (match compressed_depth_body env fmt fmt0 data hj with
           | .ok j => j
           | .error e => image_meta_err fmt0 data.length ("compressedDepth decode error: " ++ e))
    else if strContainsSub fmt "png" then
      .ok (std_compressed_image "png" data fmt0 hj)
    else
      .ok (std_compressed_image "jpeg" data fmt0 hj)

/-! ### Raw Image handling (`_raw_image_to_dict`, lines 560-668) -/

/-- The fixed encoding table `enc_map`. -/
def enc_map (e : String) : Option (NpDtype × Nat) :=
  if e = "rgb8" then some (.u8, 3)
  else if e = "bgr8" then some (.u8, 3)
  else if e = "rgba8" then some (.u8, 4)
  else if e = "bgra8" then some (.u8, 4)
  else if e = "mono8" ∨ e = "8UC1" then some (.u8, 1)
  else if e = "mono16" ∨ e = "16UC1" then some (.u16, 1)
  else if e = "32FC1" then some (.f32, 1)
  else if e = "32FC3" then some (.f32, 3)
  else none

/-- Split a list into consecutive chunks of `k` elements. -/
def chunkList (k : Nat) : List α → List (List α)
  | [] => []
  | x :: xs =>
      if k = 0 then [] else ((x :: xs).take k) :: chunkList k ((x :: xs).drop k)
termination_by l => l.length
decreasing_by
  rename_i h
  simp [List.length_drop]
  omega

def u16le (n : Nat) : List Nat := [n % 256, n / 256 % 256]

def u32le (n : Nat) : List Nat :=
  [n % 256, n / 256 % 256, n / 65536 % 256, n / 16777216 % 256]

/-- The minimal BMP fallback encoder (lines 622-641): 54-byte header and
bottom-up BGR rows padded to 4-byte alignment. -/
def bmpEncode (w h c : Nat) (px : List (List Nat)) : List Nat :=
  let rowSize := (w * 3 + 3) / 4 * 4
  let pixelSize := rowSize * h
  let header :=
    [66, 77] ++ u32le (54 + pixelSize) ++ u16le 0 ++ u16le 0 ++ u32le 54 ++
    u32le 40 ++ u32le w ++ u32le h ++ u16le 1 ++ u16le 24 ++ u32le 0 ++ u32le pixelSize ++
    u32le 0 ++ u32le 0 ++ u32le 0 ++ u32le 0
  let row := fun (y : Nat) =>
    let src := (px.drop ((h - 1 - y) * w)).take w
    (src.map (fun p =>
      [if c = 3 then p.getD 2 0 else p.getD 0 0,
       if c = 3 then p.getD 1 0 else p.getD 0 0,
       p.getD 0 0])).flatten ++ List.replicate (rowSize - w * 3) 0
  header ++ ((List.range h).map row).flatten

/-- `astype(np.uint8)` on an arbitrary sample (truncate, wrap mod 256). -/
def castU8 : FVal → Nat
  | .fin q => (q.floor % 256).toNat
  | _ => 0

/-- The `except Exception` result of `_raw_image_to_dict`. -/
def raw_image_meta_err (enc : String) (w h : Nat) (e : String) : Json :=
  .jo [("_msg_type", .js "image_metadata"), ("encoding", .js enc),
       ("width", .ji w), ("height", .ji h), ("error", .js e)]

/-- Body of the `_raw_image_to_dict` `try` (lines 562-661).  The leading
`import numpy` (line 563) raises when numpy is unavailable; the `except`
clause at line 662 turns that into the ImportError diagnostic. -/
def raw_image_body (env : Env) (enc : String) (w h step : Nat) (data : List Nat) (hj : Json) :
    Except String Json :=
  if ¬ env.hasNumpy then .error "No module named numpy"
  else
  match enc_map enc with
  | none =>
    .ok (.jo [("_msg_type", .js "image_metadata"), ("encoding", .js enc),
              ("width", .ji w), ("height", .ji h), ("step", .ji step),
              ("error", .js ("Unsupported encoding: " ++ enc))])
  | some (dt, ch) =>
    let isz := dtypeSize dt
    -- np.frombuffer raises unless the payload length is a dtype multiple
    if data.length % isz ≠ 0 then .error "buffer size must be a multiple of element size"
    else
    let vals := (chunkList isz data).map (readDtype dt)
    -- .reshape raises unless the element count matches exactly
    if vals.length ≠ h * w * ch then .error "cannot reshape array"
    else
    let arr8 : List Nat :=
      if dt = .f32 then normalizeFinite vals
      else if dt = .u16 then vals.map (fun v => v.toNatFloor / 256)
      else vals.map FVal.toNatFloor
    let px := chunkList ch arr8
    if env.hasCv2 then
      let px1 := if enc = "rgb8" ∨ enc = "rgba8" ∨ enc = "bgra8" then env.cvtColor enc px else px
      let px2 :=
        if ch = 1 ∧ (enc = "32FC1" ∨ enc = "mono16" ∨ enc = "16UC1") then
          px1.map (fun p => let t := env.colorMapJet (p.getD 0 0); [t.1, t.2.1, t.2.2])
        else px1
      do
        let encoded ← env.jpegEncodeImg px2
        .ok (.jo [("_msg_type", .js "compressed_image"), ("format", .js "jpeg"),
                  ("data", .js (b64encode encoded)), ("width", .ji w), ("height", .ji h),
                  ("encoding", .js enc), ("header", hj)])
    else
      -- ImportError: BMP fallback, grayscale stacked to three channels
      let px3 := if ch = 1 then px.map (fun p => [p.getD 0 0, p.getD 0 0, p.getD 0 0]) else px
      let c := if ch = 1 then 3 else ch
      let bmp := bmpEncode w h c px3
      .ok (.jo [("_msg_type", .js "compressed_image"), ("format", .js "bmp"),
                ("data", .js (b64encode bmp)), ("width", .ji w), ("height", .ji h),
                ("encoding", .js enc), ("header", hj),
                ("note", .js "cv2 not available, using BMP fallback (lower quality)")])

end Ros2Graph

namespace Ros2Graph

/-! ### PointCloud2 extraction (`_extract_pointcloud_data`, lines 436-558) -/

structure PCResult where
  positions : List (ℚ × ℚ × ℚ)
  colors : List (Nat × Nat × Nat)
  num_points : Nat
  bounds_min : ℚ × ℚ × ℚ
  bounds_max : ℚ × ℚ × ℚ

/-- Declared point count `width*height` clipped to what the payload holds
(`actual_points = len(raw) // point_step`, lines 462-464). -/
def pcRowCount (pc : PointCloud2Msg) : Nat :=
  let declared := pc.width * pc.height
  let actual := pc.data.length / pc.point_step
  if actual < declared then actual else declared

/-- The per-point byte rows `raw[:num_points*point_step].reshape(...)`. -/
def pcRows (pc : PointCloud2Msg) : List (List Nat) :=
  (List.range (pcRowCount pc)).map
    (fun i => (pc.data.drop (i * pc.point_step)).take pc.point_step)

/-- `field_info` dict: name maps to (offset, numpy dtype); a later field
with the same name overwrites an earlier one. -/
def pcFieldLookup (pc : PointCloud2Msg) (name : String) : Option (Nat × NpDtype) :=
  ((pc.fields.map (fun f => (f.name, (f.offset, DTYPE_MAP f.datatype)))).reverse).lookup name

/-- One coordinate column: slice each row at the field's offset and view it
as the field's dtype.  The numpy `.view` raises when the slice is narrower
than the dtype (offset too close to the end of the stride). -/
def pcAxisCol (pc : PointCloud2Msg) (rows : List (List Nat)) (axis : String) :
    Except String (List FVal) :=
  match pcFieldLookup pc axis with
  | none => .ok (List.replicate rows.length (.fin 0))
  | some (off, dt) =>
      if pc.point_step < off + dtypeSize dt then
        .error "ValueError: new dtype size incompatible with sliced view"
      else .ok (rows.map (fun rw => readDtype dt ((rw.drop off).take (dtypeSize dt))))

/-- Byte rows paired with their raw (possibly non-finite) xyz samples. -/
def pcPairs (pc : PointCloud2Msg) :
    Except String (List (List Nat × (FVal × FVal × FVal))) :=
  match pcAxisCol pc (pcRows pc) "x" with
  | .error e => .error e
  | .ok colx =>
    match pcAxisCol pc (pcRows pc) "y" with
    | .error e => .error e
    | .ok coly =>
      match pcAxisCol pc (pcRows pc) "z" with
      | .error e => .error e
      | .ok colz =>
        .ok ((List.range (pcRows pc).length).map (fun i =>
          ((pcRows pc).getD i [],
           (colx.getD i (.fin 0), coly.getD i (.fin 0), colz.getD i (.fin 0)))))

def finTriple : FVal × FVal × FVal → Option (ℚ × ℚ × ℚ)
  | (.fin x, .fin y, .fin z) => some (x, y, z)
  | _ => none

/-- Rows and positions surviving `valid_mask = np.isfinite(positions).all(axis=1)`. -/
def pcValidPairs (pc : PointCloud2Msg) :
    Except String (List (List Nat × (ℚ × ℚ × ℚ))) :=
  (List.filterMap (fun rp : List Nat × (FVal × FVal × FVal) =>
      (finTriple rp.2).map (fun q => (rp.1, q)))) <$> pcPairs pc

/-- The decoded finite positions, before any color pairing or downsampling. -/
def pc_filtered (pc : PointCloud2Msg) : Except String (List (ℚ × ℚ × ℚ)) :=
  (List.map Prod.snd) <$> pcValidPairs pc

/-- Pure-rational variant of the clip-and-cast to uint8. -/
def ratToU8clip (q : ℚ) : Nat :=
  if q < 0 then 0 else if (255 : ℚ) < q then 255 else q.floor.toNat

/-- The color resolution chain (lines 486-537): packed rgb/rgba, separate
r/g/b fields, intensity colormap, else height-based colormap. -/
def pcColors (env : Env) (pc : PointCloud2Msg) (validRows : List (List Nat))
    (filtered : List (ℚ × ℚ × ℚ)) : Except String (List (Nat × Nat × Nat)) :=
  let n := filtered.length
  if (pcFieldLookup pc "rgb").isSome ∨ (pcFieldLookup pc "rgba").isSome then
    let rgbName := if (pcFieldLookup pc "rgba").isSome then "rgba" else "rgb"
    match pcFieldLookup pc rgbName with
    | none => .error "unreachable"
    | some (off, _) =>
      if pc.point_step < off + 4 then
        .error "ValueError: new dtype size incompatible with sliced view"
      else
        .ok (validRows.map (fun rw =>
          let v := leNat ((rw.drop off).take 4)
          (v / 65536 % 256, v / 256 % 256, v % 256)))
  else if (pcFieldLookup pc "r").isSome ∧ (pcFieldLookup pc "g").isSome ∧
          (pcFieldLookup pc "b").isSome then
    let chan := fun (ch : String) =>
      match pcFieldLookup pc ch with
      | none => Except.error "unreachable"
      | some (off, dt) =>
        if pc.point_step < off + dtypeSize dt then
          Except.error "ValueError: new dtype size incompatible with sliced view"
        else Except.ok (validRows.map (fun rw => castU8 (readDtype dt ((rw.drop off).take (dtypeSize dt)))))
    do
      let rcol ← chan "r"
      let gcol ← chan "g"
      let bcol ← chan "b"
      .ok ((List.range n).map (fun i => (rcol.getD i 0, gcol.getD i 0, bcol.getD i 0)))
  else if (pcFieldLookup pc "intensity").isSome then
    match pcFieldLookup pc "intensity" with
    | none => .error "unreachable"
    | some (off, dt) =>
      if pc.point_step < off + dtypeSize dt then
        .error "ValueError: new dtype size incompatible with sliced view"
      else
        let intensity := validRows.map (fun rw => readDtype dt ((rw.drop off).take (dtypeSize dt)))
        let valid_i := validFinVals intensity
        let norm : List Nat :=
          if ¬ valid_i.isEmpty then
            let mn := listMin valid_i
            let mx := listMax valid_i
            if mn < mx then
              intensity.map (fun v =>
                FVal.toU8clip (FVal.fmul (FVal.fdiv (FVal.fsub v (.fin mn)) (.fin (mx - mn))) (.fin 255)))
            else List.replicate n 128
          else List.replicate n 128
        if env.hasCv2 then
          .ok (norm.map (fun v => let t := env.colorMapTurbo v; (t.2.2, t.2.1, t.1)))
        else .ok (norm.map (fun v => (v, 255 - v, 128)))
  else
    -- height-based coloring keyed on z
    let z := filtered.map (fun p => p.2.2)
    let zmn := listMin z
    let zmx := listMax z
    let znorm : List Nat :=
      if zmn < zmx then z.map (fun v => ratToU8clip ((v - zmn) / (zmx - zmn) * 255))
      else List.replicate n 128
    if env.hasCv2 then
      .ok (znorm.map (fun v => let t := env.colorMapTurbo v; (t.2.2, t.2.1, t.1)))
    else .ok (znorm.map (fun v => (v, 255 - v, 128)))

/-- The shared downsampling step (lines 539-544 and 415-420): above the cap,
take `np.random.choice(n, max_points, replace=False)` fancy-indexed rows;
an out-of-range index raises. -/
def pcDownsample (env : Env) (maxPoints : Nat) (positions : List (ℚ × ℚ × ℚ))
    (colors : List (Nat × Nat × Nat)) :
    Except String (List (ℚ × ℚ × ℚ) × List (Nat × Nat × Nat) × Nat) :=
  let n := positions.length
  if maxPoints < n then
    let idx := env.sampleIndices n maxPoints
    if idx.all (· < n) then
      .ok (idx.map (fun i => positions.getD i (0, 0, 0)),
           idx.map (fun i => colors.getD i (0, 0, 0)),
           maxPoints)
    else .error "IndexError: index out of bounds"
  else .ok (positions, colors, n)

/-- Axis-aligned bounds `positions.min(axis=0)` / `.max(axis=0)`. -/
def boundsOf (ps : List (ℚ × ℚ × ℚ)) : (ℚ × ℚ × ℚ) × (ℚ × ℚ × ℚ) :=
  ((listMin (ps.map (fun p => p.1)), listMin (ps.map (fun p => p.2.1)),
    listMin (ps.map (fun p => p.2.2))),
   (listMax (ps.map (fun p => p.1)), listMax (ps.map (fun p => p.2.1)),
    listMax (ps.map (fun p => p.2.2))))

/-- Body of the `_extract_pointcloud_data` `try`; `.ok none` is an early
`return None`, `.error` an exception reaching the `except` clause. -/
def extract_pointcloud_body (env : Env) (pc : PointCloud2Msg) (maxPoints : Nat) :
    Except String (Option PCResult) :=
  if ¬ env.hasNumpy then .error "No module named numpy"
  else if pc.width * pc.height = 0 then .ok none
  else if pc.point_step = 0 then .error "ZeroDivisionError: integer division or modulo by zero"
  else if pcRowCount pc = 0 then .ok none
  else
    match pcValidPairs pc with
    | .error e => .error e
    | .ok pairs =>
      if (pairs.map Prod.snd).length = 0 then .ok none
      else
        match pcColors env pc (pairs.map Prod.fst) (pairs.map Prod.snd) with
        | .error e => .error e
        | .ok colors =>
          match pcDownsample env maxPoints (pairs.map Prod.snd) colors with
          | .error e => .error e
          | .ok (pos2, col2, n2) =>
            .ok (some { positions := pos2, colors := col2, num_points := n2,
                        bounds_min := (boundsOf pos2).1, bounds_max := (boundsOf pos2).2 })

def extract_pointcloud_data (env : Env) (pc : PointCloud2Msg)
    (maxPoints : Nat := 150000) : Option PCResult :=
  match extract_pointcloud_body env pc maxPoints with
  | .ok r => r
  | .error _ => none

/-! ### LaserScan extraction (`_extract_laserscan_data`, lines 365-434) -/

/-- Ranges passing `np.isfinite & (>= range_min) & (<= range_max)`, paired
with their angles `angle_min + i * angle_increment`. -/
def ls_filtered (scan : LaserScanMsg) : List (ℚ × ℚ) :=
  (scan.ranges.enum).filterMap (fun p =>
    match p.2 with
    | .fin q =>
        if scan.range_min ≤ q ∧ q ≤ scan.range_max then
          some (q, scan.angle_min + (p.1 : ℚ) * scan.angle_increment)
        else none
    | _ => none)

/-- Polar-to-Cartesian conversion of the surviving samples. -/
def ls_positions (env : Env) (scan : LaserScanMsg) : List (ℚ × ℚ × ℚ) :=
  (ls_filtered scan).map (fun p => (p.1 * env.qcos p.2, p.1 * env.qsin p.2, 0))

/-- `intensities[valid_mask]` when the intensity array is used. -/
def ls_filtered_intens (scan : LaserScanMsg) : List ℚ :=
  (scan.ranges.zip scan.intensities).filterMap (fun p =>
    match p.1 with
    | .fin q => if scan.range_min ≤ q ∧ q ≤ scan.range_max then some p.2 else none
    | _ => none)

/-- Colors by intensity when present with matching length, else by range
magnitude (lines 392-413). -/
def ls_colors (env : Env) (scan : LaserScanMsg) (rs : List ℚ) (n : Nat) :
    List (Nat × Nat × Nat) :=
  let norm : List Nat :=
    if scan.intensities ≠ [] ∧ scan.intensities.length = scan.ranges.length then
      let its := ls_filtered_intens scan
      let mn := listMin its
      let mx := listMax its
      if mn < mx then its.map (fun v => ratToU8clip ((v - mn) / (mx - mn) * 255))
      else List.replicate n 128
    else
      let mn := listMin rs
      let mx := listMax rs
      if mn < mx then rs.map (fun v => ratToU8clip ((v - mn) / (mx - mn) * 255))
      else List.replicate n 128
  if env.hasCv2 then norm.map (fun v => let t := env.colorMapTurbo v; (t.2.2, t.2.1, t.1))
  else norm.map (fun v => (v, 255 - v, 128))

/-- Body of the `_extract_laserscan_data` `try`. -/
def extract_laserscan_body (env : Env) (scan : LaserScanMsg) (maxPoints : Nat) :
    Except String (Option PCResult) :=
  if ¬ env.hasNumpy then .error "No module named numpy"
  else if ((ls_filtered scan).map Prod.fst).length = 0 then .ok none
  else
    match pcDownsample env maxPoints (ls_positions env scan)
        (ls_colors env scan ((ls_filtered scan).map Prod.fst)
          (ls_positions env scan).length) with
    | .error e => .error e
    | .ok (pos2, col2, n2) =>
      .ok (some { positions := pos2, colors := col2, num_points := n2,
                  bounds_min := (boundsOf pos2).1, bounds_max := (boundsOf pos2).2 })

def extract_laserscan_data (env : Env) (scan : LaserScanMsg)
    (maxPoints : Nat := 150000) : Option PCResult :=
  match extract_laserscan_body env scan maxPoints with
  | .ok r => r
  | .error _ => none

end Ros2Graph

namespace Ros2Graph

/-- Serialization of an extraction result into the message dict
(`result.update(pc_data)`). -/
def pc_result_fields (env : Env) (r : PCResult) : List (String × Json) :=
  [("positions", .js (b64encode
      ((r.positions.map (fun p => env.f32bytes p.1 ++ env.f32bytes p.2.1 ++ env.f32bytes p.2.2)).flatten))),
   ("colors", .js (b64encode ((r.colors.map (fun c => [c.1, c.2.1, c.2.2])).flatten))),
   ("num_points", .ji r.num_points),
   ("bounds", .jo [("min", .ja [.jq r.bounds_min.1, .jq r.bounds_min.2.1, .jq r.bounds_min.2.2]),
                   ("max", .ja [.jq r.bounds_max.1, .jq r.bounds_max.2.1, .jq r.bounds_max.2.2])])]

/-- The metadata part of the PointCloud2 result (lines 275-288). -/
def pcBase (pc : PointCloud2Msg) (hj : Json) : List (String × Json) :=
  [("_msg_type", .js "pointcloud2"), ("height", .ji pc.height), ("width", .ji pc.width),
   ("fields", .ja (pc.fields.map (fun f =>
      Json.jo [("name", .js f.name), ("offset", .ji f.offset),
               ("datatype", .ji f.datatype), ("count", .ji f.count)]))),
   ("point_step", .ji pc.point_step), ("row_step", .ji pc.row_step),
   ("is_dense", .jb pc.is_dense), ("data_size", .ji pc.data.length), ("header", hj)]

/-- The metadata part of the LaserScan result (lines 297-305). -/
def lsBase (scan : LaserScanMsg) (hj : Json) : List (String × Json) :=
  [("_msg_type", .js "laserscan"), ("header", hj),
   ("angle_min", .jq scan.angle_min), ("angle_max", .jq scan.angle_max),
   ("angle_increment", .jq scan.angle_increment),
   ("range_min", .jq scan.range_min), ("range_max", .jq scan.range_max)]

mutual

/-- `_message_to_dict` (lines 145-316).  `Except.error` models an uncaught
Python exception escaping the call. -/
def message_to_dict (env : Env) : RosMsg → Except String Json
  | .compressedImage fmt data hdr =>
      -- the whole CompressedImage branch is wrapped in try/except
      (match genericFields env hdr with
       | .error e => .ok (compressed_image_err e)
       | .ok hfs =>
         match compressed_image_body env fmt data (.jo hfs) with
         | .ok j => .ok j
         | .error e => .ok (compressed_image_err e))
  | .rawImage enc w h step data hdr =>
      -- `_raw_image_to_dict` is wrapped in its own try/except
      (match genericFields env hdr with
       | .error e => .ok (raw_image_meta_err enc w h e)
       | .ok hfs =>
         match raw_image_body env enc w h step data (.jo hfs) with
         | .ok j => .ok j
         | .error e => .ok (raw_image_meta_err enc w h e))
  | .pointCloud2 pc hdr =>
      -- the PointCloud2 branch itself has no try; only the extraction helper does
      (match genericFields env hdr with
       | .error e => .error e
       | .ok hfs =>
         match extract_pointcloud_data env pc with
         | none => .ok (.jo (pcBase pc (.jo hfs)))
         | some r => .ok (.jo (pcBase pc (.jo hfs) ++ pc_result_fields env r)))
  | .laserScan scan hdr =>
      (match genericFields env hdr with
       | .error e => .error e
       | .ok hfs =>
         match extract_laserscan_data env scan with
         | none => .ok (.jo (lsBase scan (.jo hfs)))
         | some r => .ok (.jo (lsBase scan (.jo hfs) ++ pc_result_fields env r)))
  | .generic fields =>
      (match genericFields env fields with
       | .error e => .error e
       | .ok fs => .ok (.jo fs))
termination_by m => sizeOf m

/-- The generic field walk (lines 312-316). -/
def genericFields (env : Env) : List (String × Value) → Except String (List (String × Json))
  | [] => .ok []
  | (n, v) :: rest =>
      (match value_to_json_safe env v with
       | .error e => .error e
       | .ok j =>
         match genericFields env rest with
         | .error e => .error e
         | .ok r => .ok ((n, j) :: r))
termination_by fs => sizeOf fs

/-- `_value_to_json_safe` (lines 318-363). -/
def value_to_json_safe (env : Env) : Value → Except String Json
  | .vmsg m => message_to_dict env m
  | .vbytes bs =>
      if 256 < bs.length then .ok (.js ("<binary: " ++ toString bs.length ++ " bytes>"))
      else .ok (.ja (bs.map (fun b => Json.ji (b : Int))))
  | .varr xs =>
      if 256 < xs.length then .ok (.js ("<array[" ++ toString xs.length ++ "]>"))
      else .ok (.ja (xs.map (fun b => Json.ji b)))
  | .vlist xs =>
      if 200 < xs.length then
        match valueListTrunc env 200 xs with
        | .error e => .error e
        | .ok js0 =>
          .ok (.ja (js0 ++ [.js ("... (" ++ toString (xs.length - 200) ++ " more items)")]))
      else
        match valueListTrunc env xs.length xs with
        | .error e => .error e
        | .ok js0 => .ok (.ja js0)
  | .vfloat f =>
      match f with
      | .fin q => .ok (.jq q)
      | _ => .ok (.js f.reprStr)
  | .vint n => .ok (.ji n)
  | .vstr s => .ok (.js s)
  | .vbool b => .ok (.jb b)
  | .vnull => .ok Json.null
termination_by v => sizeOf v

/-- Elementwise conversion of the first `k` items of a field list. -/
def valueListTrunc (env : Env) : Nat → List Value → Except String (List Json)
  | _, [] => .ok []
  | 0, _ :: _ => .ok []
  | k + 1, v :: rest =>
      (match value_to_json_safe env v with
       | .error e => .error e
       | .ok j =>
         match valueListTrunc env k rest with
         | .error e => .error e
         | .ok r => .ok (j :: r))
termination_by _ xs => sizeOf xs

end

end Ros2Graph

namespace Ros2Graph

/-! ### Subscription manager (lines 28-143) -/

inductive Reliability where
  | reliable | best_effort
deriving DecidableEq

inductive Durability where
  | volatile | transient_local
deriving DecidableEq

inductive History where
  | keep_last | keep_all
deriving DecidableEq

structure QoSProfile where
  depth : Nat
  history : History
  reliability : Reliability
  durability : Durability
deriving DecidableEq

/-- One entry of `get_publishers_info_by_topic`. -/
structure PubInfo where
  reliability : Reliability
  durability : Durability

/-- The latest-message cache entry (`{'data': ..., 'timestamp': ...}`). -/
structure MsgEntry where
  data : Json
  timestamp : ℚ

/-- Mutable state of `ROS2GraphService`: the subscription table (topic name
to opaque handle) and the latest-message cache. -/
structure SubState where
  topic_subscriptions : List (String × Nat)
  latest_messages : List (String × MsgEntry)

/-- The rclpy calls `subscribe_to_topic` makes, as oracles; `Except.error`
and `Option.none` model the call raising. -/
structure SubEnv where
  /-- `get_publishers_info_by_topic` for the topic being subscribed. -/
  publishersInfo : Except String (List PubInfo)
  /-- `get_message(topic_type)`; `none` models the raise on unknown types. -/
  resolveMsgType : String → Option Unit
  /-- `create_subscription` with the chosen QoS profile. -/
  createSub : QoSProfile → Except String Nat

/-- The starting profile of `_detect_topic_qos` (lines 88-93). -/
def qos_default : QoSProfile :=
  { depth := 10, history := .keep_last, reliability := .reliable, durability := .volatile }

/-- One step of the publisher loop of `_detect_topic_qos` (lines 98-106). -/
def qos_widen (q : QoSProfile) (p : PubInfo) : QoSProfile :=
  let q1 := if p.reliability = .best_effort then { q with reliability := .best_effort } else q
  if p.durability = .volatile then { q1 with durability := .volatile } else q1

/-- `_detect_topic_qos` (lines 81-117): widen the default toward the
observed publishers; a failing publisher query is caught and yields the
default profile. -/
def detect_topic_qos (env : SubEnv) : QoSProfile :=
  match env.publishersInfo with
  | .error _ => qos_default
  | .ok pubs => pubs.foldl qos_widen qos_default

/-- Body of the `subscribe_to_topic` `try` (lines 43-75): resolve the type
name, detect the QoS profile, open the subscription. -/
def subscribe_attempt (env : SubEnv) (topic_type : String) : Except String Nat :=
  -- `topic_type.rsplit('/', 1)` unpacking raises without a separator
  if ¬ strContainsSub topic_type "/" then throw "ValueError: not enough values to unpack"
  else
    match env.resolveMsgType topic_type with
    | none => throw ("ModuleNotFoundError: " ++ topic_type)
    | some _ =>
      let qos := detect_topic_qos env
      match env.createSub qos with
      | .error e => throw e
      | .ok handle => pure handle

/-- `subscribe_to_topic` (lines 36-79).  The body after the membership test
is wrapped in try/except returning False; nothing escapes. -/
def subscribe_to_topic (env : SubEnv) (st : SubState) (topic_name topic_type : String) :
    Bool × SubState :=
  if (st.topic_subscriptions.lookup topic_name).isSome then (true, st)
  else
    match subscribe_attempt env topic_type with
    | .error _ => (false, st)
    | .ok handle =>
        (true, { st with topic_subscriptions := (topic_name, handle) :: st.topic_subscriptions })

/-- `unsubscribe_from_topic` (lines 119-127). -/
def unsubscribe_from_topic (st : SubState) (topic_name : String) : SubState :=
  if (st.topic_subscriptions.lookup topic_name).isSome then
    { topic_subscriptions := st.topic_subscriptions.filter (fun p => p.1 ≠ topic_name),
      latest_messages := st.latest_messages.filter (fun p => p.1 ≠ topic_name) }
  else st

/-- `get_latest_message` (lines 129-132). -/
def get_latest_message (st : SubState) (topic_name : String) : Option MsgEntry :=
  st.latest_messages.lookup topic_name

/-- The subscription callback's cache write (lines 49-56): latest-wins. -/
def store_latest (st : SubState) (topic_name : String) (d : Json) (ts : ℚ) : SubState :=
  { st with latest_messages :=
      (topic_name, { data := d, timestamp := ts }) ::
        st.latest_messages.filter (fun p => p.1 ≠ topic_name) }

/-- `reset_runtime_state` (lines 134-143). -/
def reset_runtime_state (_st : SubState) : SubState :=
  { topic_subscriptions := [], latest_messages := [] }

/-! ### Per-topic streaming session (`ws_topic`, lines 1001-1044) -/

inductive StreamEvent where
  | message (d : Json) (ts : ℚ)
  | warning

/-- Loop-local state of the polling loop. -/
structure StreamLoopState where
  last_timestamp : ℚ
  no_message_warned : Bool

/-- One iteration of the cadence poll loop: `cache` is what
`get_latest_message` returned, `sinceSubscribe` is
`time.time() - subscribe_time`, and `sendOk` tells whether `ws.send`
succeeds (False raises, breaking the loop).  Returns the event given to the
viewer (if any), the next loop state, and whether the loop keeps running. -/
def ws_warn_branch (sinceSubscribe : ℚ) (sendOk : Bool) (st : StreamLoopState) :
    Option StreamEvent × StreamLoopState × Bool :=
  if ¬ st.no_message_warned ∧ st.last_timestamp = 0 ∧ 5 < sinceSubscribe then
    if sendOk then (some .warning, { st with no_message_warned := true }, true)
    else (some .warning, st, false)
  else (none, st, true)

def ws_topic_poll_step (cache : Option MsgEntry) (sinceSubscribe : ℚ) (sendOk : Bool)
    (st : StreamLoopState) : Option StreamEvent × StreamLoopState × Bool :=
  match cache with
  | some e =>
      if st.last_timestamp < e.timestamp then
        if sendOk then
          (some (.message e.data e.timestamp),
           { last_timestamp := e.timestamp, no_message_warned := false }, true)
        else (some (.message e.data e.timestamp), st, false)
      else ws_warn_branch sinceSubscribe sendOk st
  | none => ws_warn_branch sinceSubscribe sendOk st

/-! ### Topology push loop (`graph_update_loop`, lines 877-909) -/

/-- One iteration of the broadcast loop, generic in the snapshot value the
`get_graph_data` query produced (the loop only compares it with `!=`).
Returns whether a push happened, the new `last_graph_data`, and the pruned
client registry. -/
def graph_update_step {G : Type} [DecidableEq G] (current : G) (last : Option G)
    (clients : List Nat) (sendOk : Nat → Bool) : Bool × Option G × List Nat :=
  if some current ≠ last ∧ clients ≠ [] then
    (true, some current, clients.filter sendOk)
  else (false, last, clients)

end Ros2Graph

namespace Ros2Graph

/-! ### Helper lemmas -/

lemma qos_widen_durability (q : QoSProfile) (p : PubInfo)
    (h : q.durability = .volatile) : (qos_widen q p).durability = .volatile := by
  unfold qos_widen
  split <;> split <;> simp_all

lemma qos_widen_reliability (q : QoSProfile) (p : PubInfo) :
    (qos_widen q p).reliability = .best_effort ↔
      (q.reliability = .best_effort ∨ p.reliability = .best_effort) := by
  unfold qos_widen
  split <;> split <;> simp_all

lemma foldl_qos_widen_durability (pubs : List PubInfo) (q : QoSProfile)
    (h : q.durability = .volatile) :
    (pubs.foldl qos_widen q).durability = .volatile := by
  induction pubs generalizing q with
  | nil => simpa using h
  | cons p rest ih => exact ih _ (qos_widen_durability q p h)

lemma foldl_qos_widen_reliability (pubs : List PubInfo) (q : QoSProfile) :
    (pubs.foldl qos_widen q).reliability = .best_effort ↔
      (q.reliability = .best_effort ∨ ∃ p ∈ pubs, p.reliability = .best_effort) := by
  induction pubs generalizing q with
  | nil => simp
  | cons p rest ih =>
      simp only [List.foldl_cons, ih, qos_widen_reliability, List.mem_cons]
      constructor
      · rintro (h | h)
        · rcases h with h | h
          · exact Or.inl h
          · exact Or.inr ⟨p, Or.inl rfl, h⟩
        · rcases h with ⟨x, hx, hr⟩
          exact Or.inr ⟨x, Or.inr hx, hr⟩
      · rintro (h | ⟨x, hx | hx, hr⟩)
        · exact Or.inl (Or.inl h)
        · subst hx
          exact Or.inl (Or.inr hr)
        · exact Or.inr ⟨x, hx, hr⟩

/-! ### C3 -/

/-- C3: the negotiated profile starts at reliable+volatile and is widened
toward the observed publishers: reliability becomes best-effort iff at
least one observed publisher is best-effort, and durability is volatile
in every case. -/
theorem c3_qos_widening (env : SubEnv) (pubs : List PubInfo)
    (h : env.publishersInfo = .ok pubs) :
    ((detect_topic_qos env).reliability = .best_effort ↔
       ∃ p ∈ pubs, p.reliability = .best_effort)
    ∧ (detect_topic_qos env).durability = .volatile := by
  unfold detect_topic_qos
  rw [h]
  constructor
  · rw [foldl_qos_widen_reliability]
    simp [qos_default]
  · exact foldl_qos_widen_durability pubs qos_default rfl

def envC3 : SubEnv where
  publishersInfo := .ok [{ reliability := .best_effort, durability := .transient_local }]
  resolveMsgType := fun _ => some ()
  createSub := fun _ => .ok 0

/-- Witness for C3 at a concrete publisher list. -/
theorem c3_qos_widening_witness :
    ((detect_topic_qos envC3).reliability = .best_effort ↔
       ∃ p ∈ [({ reliability := .best_effort, durability := .transient_local } : PubInfo)],
         p.reliability = .best_effort)
    ∧ (detect_topic_qos envC3).durability = .volatile :=
  c3_qos_widening envC3 _ rfl

/-! ### C9 -/

/-- C9: when the topology query yields the same snapshot on two consecutive
iterations while viewers are connected, the first iteration pushes it and
records it as the last broadcast snapshot, and the second iteration sends
nothing because the fresh snapshot equals the recorded one. -/
theorem c9_topology_push_once {G : Type} [DecidableEq G] (g : G) (last : Option G)
    (clients clients2 : List Nat) (ok ok2 : Nat → Bool)
    (hc : clients ≠ []) (hl : last ≠ some g) :
    (graph_update_step g last clients ok).1 = true
    ∧ (graph_update_step g last clients ok).2.1 = some g
    ∧ (graph_update_step g (graph_update_step g last clients ok).2.1 clients2 ok2).1 = false := by
  unfold graph_update_step
  have h1 : some g ≠ last ∧ clients ≠ [] := ⟨fun he => hl he.symm, hc⟩
  rw [if_pos h1]
  refine ⟨rfl, rfl, ?_⟩
  simp

/-- Witness for C9 on a concrete snapshot and client registry. -/
theorem c9_topology_push_once_witness :
    (graph_update_step (1 : Nat) none [7] (fun _ => true)).1 = true
    ∧ (graph_update_step (1 : Nat) none [7] (fun _ => true)).2.1 = some 1
    ∧ (graph_update_step (1 : Nat)
         (graph_update_step (1 : Nat) none [7] (fun _ => true)).2.1 [7] (fun _ => true)).1 = false :=
  c9_topology_push_once 1 none [7] [7] _ _ (by simp) (by simp)

/-! ### C8 -/

/-- C8: within one streaming session a message frame is emitted only when
the cached entry's timestamp strictly exceeds the last timestamp sent, and
once an entry has been sent the same (non-advanced) entry is never re-sent. -/
theorem c8_send_only_on_advance (e : MsgEntry) (dt : ℚ) (ok : Bool)
    (st : StreamLoopState) :
    (∀ d ts, (ws_topic_poll_step (some e) dt ok st).1 = some (.message d ts) →
       st.last_timestamp < e.timestamp ∧ d = e.data ∧ ts = e.timestamp)
    ∧ (¬ st.last_timestamp < e.timestamp →
       ∀ d ts, (ws_topic_poll_step (some e) dt ok st).1 ≠ some (.message d ts))
    ∧ (st.last_timestamp < e.timestamp →
       ∀ dt2 ok2 d ts,
         (ws_topic_poll_step (some e) dt2 ok2
            ((ws_topic_poll_step (some e) dt true st).2.1)).1 ≠ some (.message d ts)) := by
  refine ⟨?_, ?_, ?_⟩
  · intro d ts h
    simp only [ws_topic_poll_step] at h
    by_cases hlt : st.last_timestamp < e.timestamp
    · rw [if_pos hlt] at h
      cases ok <;> simp_all
    · rw [if_neg hlt] at h
      unfold ws_warn_branch at h
      split at h <;> (try split at h) <;> simp_all
  · intro hlt d ts h
    simp only [ws_topic_poll_step] at h
    rw [if_neg hlt] at h
    unfold ws_warn_branch at h
    split at h <;> (try split at h) <;> simp_all
  · intro hlt dt2 ok2 d ts h
    have hst : (ws_topic_poll_step (some e) dt true st).2.1 =
        { last_timestamp := e.timestamp, no_message_warned := false } := by
      simp only [ws_topic_poll_step]
      rw [if_pos hlt]
      simp
    rw [hst] at h
    simp only [ws_topic_poll_step] at h
    rw [if_neg (lt_irrefl e.timestamp)] at h
    unfold ws_warn_branch at h
    split at h <;> (try split at h) <;> simp_all

/-- Witness for C8 at a concrete cache entry and session state: after the
entry with timestamp 2 has been sent, the same entry is not re-sent. -/
theorem c8_send_only_on_advance_witness :
    (ws_topic_poll_step (some { data := Json.null, timestamp := 2 }) 0 true
       ((ws_topic_poll_step (some { data := Json.null, timestamp := 2 }) 0 true
          { last_timestamp := 0, no_message_warned := false }).2.1)).1
      ≠ some (.message Json.null 2) :=
  (c8_send_only_on_advance { data := Json.null, timestamp := 2 } 0 true
    { last_timestamp := 0, no_message_warned := false }).2.2 (by norm_num) 0 true Json.null 2

end Ros2Graph

namespace Ros2Graph

/-! ### C2 -/

/-- C2: `subscribe_to_topic` is a no-op success when the topic is already
subscribed; a failure to resolve the message type or to open the
subscription returns false with the state unchanged and the topic still
unsubscribed (the embedding is a total function: the body is fully guarded
by try/except, so no exception escapes). -/
theorem c2_subscribe_contract (env : SubEnv) (st : SubState) (t ty : String) :
    ((st.topic_subscriptions.lookup t).isSome →
       subscribe_to_topic env st t ty = (true, st))
    ∧ ((st.topic_subscriptions.lookup t) = none → env.resolveMsgType ty = none →
       subscribe_to_topic env st t ty = (false, st))
    ∧ (∀ e, (st.topic_subscriptions.lookup t) = none →
       env.createSub (detect_topic_qos env) = .error e →
       subscribe_to_topic env st t ty = (false, st))
    ∧ ((subscribe_to_topic env st t ty).1 = false →
       (subscribe_to_topic env st t ty).2 = st ∧
       ((subscribe_to_topic env st t ty).2.topic_subscriptions.lookup t) = none) := by
  refine ⟨?_, ?_, ?_, ?_⟩
  · intro h
    unfold subscribe_to_topic
    rw [if_pos h]
  · intro hn hres
    unfold subscribe_to_topic subscribe_attempt
    rw [if_neg (by simp [hn])]
    by_cases hsl : strContainsSub ty "/"
    · simp [hsl, hres, throw, throwThe, MonadExceptOf.throw]
    · simp [hsl, throw, throwThe, MonadExceptOf.throw]
  · intro e hn hcr
    unfold subscribe_to_topic subscribe_attempt
    rw [if_neg (by simp [hn])]
    by_cases hsl : strContainsSub ty "/"
    · cases hres : env.resolveMsgType ty <;>
        simp [hsl, hres, hcr, throw, throwThe, MonadExceptOf.throw]
    · simp [hsl, throw, throwThe, MonadExceptOf.throw]
  · intro hfalse
    unfold subscribe_to_topic at hfalse ⊢
    by_cases hmem : (st.topic_subscriptions.lookup t).isSome
    · rw [if_pos hmem] at hfalse
      simp at hfalse
    · rw [if_neg hmem]
      rw [if_neg hmem] at hfalse
      have hn : (st.topic_subscriptions.lookup t) = none := by
        cases h : st.topic_subscriptions.lookup t
        · rfl
        · exact absurd (by simp [h]) hmem
      cases hatt : subscribe_attempt env ty <;> rw [hatt] at hfalse <;> simp_all
      exact hn

def envC2 : SubEnv where
  publishersInfo := .ok []
  resolveMsgType := fun _ => some ()
  createSub := fun _ => .ok 3

def stC2 : SubState where
  topic_subscriptions := [("/chatter", 1)]
  latest_messages := []

/-- Witness for C2: a second subscribe on an already subscribed topic is a
no-op success. -/
theorem c2_subscribe_contract_witness :
    subscribe_to_topic envC2 stC2 "/chatter" "std_msgs/msg/String" = (true, stC2) :=
  (c2_subscribe_contract envC2 stC2 "/chatter" "std_msgs/msg/String").1 (by decide)

/-! ### C10 -/

/-- C10: a failing publisher query during QoS detection is non-fatal to the
subscribe operation: the default reliable+volatile profile is used and
`subscribe_to_topic` still opens the subscription. -/
theorem c10_qos_query_failure_nonfatal (env : SubEnv) (st : SubState)
    (t ty e : String) (handle : Nat)
    (hpub : env.publishersInfo = .error e)
    (hsl : strContainsSub ty "/" = true)
    (hres : (env.resolveMsgType ty).isSome)
    (hcr : env.createSub qos_default = .ok handle)
    (hns : (st.topic_subscriptions.lookup t) = none) :
    detect_topic_qos env = qos_default ∧
    subscribe_to_topic env st t ty =
      (true, { st with topic_subscriptions := (t, handle) :: st.topic_subscriptions }) := by
  have hq : detect_topic_qos env = qos_default := by
    unfold detect_topic_qos
    rw [hpub]
  refine ⟨hq, ?_⟩
  unfold subscribe_to_topic subscribe_attempt
  rw [if_neg (by simp [hns])]
  cases hr : env.resolveMsgType ty with
  | none => rw [hr] at hres; simp at hres
  | some u => simp [hsl, hr, hq, hcr, pure, Except.pure]

def envC10 : SubEnv where
  publishersInfo := .error "discovery timeout"
  resolveMsgType := fun _ => some ()
  createSub := fun _ => .ok 7

/-- Witness for C10 with a concrete failing publisher query. -/
theorem c10_qos_query_failure_nonfatal_witness :
    detect_topic_qos envC10 = qos_default ∧
    subscribe_to_topic envC10 { topic_subscriptions := [], latest_messages := [] }
        "/scan" "sensor_msgs/msg/LaserScan" =
      (true, { topic_subscriptions := [("/scan", 7)], latest_messages := [] }) :=
  c10_qos_query_failure_nonfatal envC10 _ "/scan" "sensor_msgs/msg/LaserScan"
    "discovery timeout" 7 rfl (by decide) (by decide) rfl (by decide)

end Ros2Graph

namespace Ros2Graph

/-! ### Helper lemmas for the depth normalization -/

lemma foldl_min_mem (a : ℚ) (xs : List ℚ) : xs.foldl min a ∈ a :: xs := by
  induction xs generalizing a with
  | nil => simp
  | cons y ys ih =>
      rw [List.foldl_cons]
      rcases min_choice a y with hm | hm
      · rw [hm]
        rcases List.mem_cons.mp (ih a) with h1 | h1
        · simp [h1]
        · exact List.mem_cons_of_mem _ (List.mem_cons_of_mem _ h1)
      · rw [hm]
        rcases List.mem_cons.mp (ih y) with h1 | h1
        · simp [h1]
        · exact List.mem_cons_of_mem _ (List.mem_cons_of_mem _ h1)

lemma listMin_mem (l : List ℚ) (h : l ≠ []) : listMin l ∈ l := by
  cases l with
  | nil => simp at h
  | cons x xs => simpa [listMin] using foldl_min_mem x xs

lemma validPosVals_pos (l : List FVal) : ∀ q ∈ validPosVals l, 0 < q := by
  intro q hq
  simp only [validPosVals, List.mem_filterMap] at hq
  obtain ⟨v, hmem, he⟩ := hq
  cases v <;> simp at he
  obtain ⟨h0, he⟩ := he
  subst he
  exact h0

/-! ### C4 -/

/-- C4: on a compressed-depth payload whose declared pixel type is the
32-bit-float variant, every decoded 16-bit pixel `v > 0` dequantizes to
`A / (v - B)`; zero pixels dequantize to zero, are excluded from the
population the min/max stretch is taken over, and render as zero. -/
theorem c4_compressed_depth_dequantization (qa qb : ℚ) (pixels : List FVal)
    (i : Nat) (v : ℚ) (hv : pixels.getD i (.fin 0) = .fin v) :
    (0 < v → v ≠ qb →
       (dequantizeDepth (.fin qa) (.fin qb) pixels).getD i (.fin 0) = .fin (qa / (v - qb)))
    ∧ (∀ q ∈ validPosVals (dequantizeDepth (.fin qa) (.fin qb) pixels), 0 < q)
    ∧ (v = 0 → i < pixels.length →
       (dequantizeDepth (.fin qa) (.fin qb) pixels).getD i (.fin 0) = .fin 0
       ∧ (normalizeDisplay (dequantizeDepth (.fin qa) (.fin qb) pixels)).getD i 0 = 0) := by
  refine ⟨?_, validPosVals_pos _, ?_⟩
  · intro hpos hne
    have hi : i < pixels.length := by
      by_contra hle
      push_neg at hle
      rw [List.getD_eq_getElem?_getD, List.getElem?_eq_none hle] at hv
      simp at hv
      exact absurd hv.symm (ne_of_gt hpos)
    have hsome : pixels[i]? = some (.fin v) := by
      rw [List.getElem?_eq_getElem hi]
      rw [List.getD_eq_getElem?_getD, List.getElem?_eq_getElem hi] at hv
      simpa using hv
    simp only [dequantizeDepth]
    rw [List.getD_eq_getElem?_getD, List.getElem?_map, hsome]
    simp only [Option.map_some', Option.getD_some]
    have hp : FVal.posB (.fin v) = true := by simp [FVal.posB, hpos]
    rw [if_pos hp]
    simp only [FVal.fsub, FVal.fdiv]
    rw [if_neg (sub_ne_zero.mpr hne)]
  · intro h0 hi
    subst h0
    have hsome : pixels[i]? = some (.fin 0) := by
      rw [List.getElem?_eq_getElem hi]
      rw [List.getD_eq_getElem?_getD, List.getElem?_eq_getElem hi] at hv
      simpa using hv
    have hdq : (dequantizeDepth (.fin qa) (.fin qb) pixels).getD i (.fin 0) = .fin 0 := by
      simp only [dequantizeDepth]
      rw [List.getD_eq_getElem?_getD, List.getElem?_map, hsome]
      simp [FVal.posB]
    refine ⟨hdq, ?_⟩
    set deq := dequantizeDepth (.fin qa) (.fin qb) pixels with hdeq
    have hlen : deq.length = pixels.length := by simp [hdeq, dequantizeDepth]
    have hisome : deq[i]? = some (.fin 0) := by
      rw [List.getElem?_eq_getElem (by omega)]
      rw [List.getD_eq_getElem?_getD,
          List.getElem?_eq_getElem (by omega : i < deq.length)] at hdq
      simpa using hdq
    rw [normalizeDisplay]
    cases hemp : (validPosVals deq).isEmpty with
    | true =>
        rw [if_pos rfl]
        rw [List.getD_eq_getElem?_getD]
        rcases Nat.lt_or_ge i (deq.length) with hlt | hge
        · rw [List.getElem?_replicate, if_pos hlt]
          rfl
        · rw [List.getElem?_eq_none (by simpa using hge)]
          rfl
    | false =>
        rw [if_neg (by simp)]
        have hne : validPosVals deq ≠ [] := by
          intro h
          rw [h] at hemp
          simp at hemp
        have hmnpos : 0 < listMin (validPosVals deq) :=
          validPosVals_pos deq _ (listMin_mem _ hne)
        set mn := listMin (validPosVals deq)
        set mx := listMax (validPosVals deq)
        by_cases hlt : mn < mx
        · have hd : (0 : ℚ) < mx - mn := by linarith
          have hq : ((0 : ℚ) - mn) / (mx - mn) * 255 < 0 := by
            have hnum : (0 : ℚ) - mn < 0 := by linarith
            have hdiv := div_neg_of_neg_of_pos hnum hd
            nlinarith
          rw [if_pos hlt, List.getD_eq_getElem?_getD, List.getElem?_map, hisome]
          simp only [Option.map_some', Option.getD_some]
          simp only [FVal.fsub, FVal.fdiv]
          rw [if_neg (sub_ne_zero.mpr (ne_of_gt hlt))]
          simp only [FVal.fmul, FVal.toU8clip]
          rw [if_pos hq]
        · rw [if_neg hlt]
          rw [List.getD_eq_getElem?_getD]
          rcases Nat.lt_or_ge i (deq.length) with hlt2 | hge
          · rw [List.getElem?_replicate, if_pos hlt2]
            rfl
          · rw [List.getElem?_eq_none (by simpa using hge)]
            rfl

/-- Witness for C4: A=1, B=0 and a decoded pixel value 500 recover depth
1/500 = 0.002, and the zero pixel next to it renders as zero. -/
theorem c4_compressed_depth_dequantization_witness :
    (dequantizeDepth (.fin 1) (.fin 0) [.fin 500, .fin 0]).getD 0 (.fin 0) = .fin (0.002 : ℚ)
    ∧ (normalizeDisplay (dequantizeDepth (.fin 1) (.fin 0) [.fin 500, .fin 0])).getD 1 0 = 0 := by
  constructor
  · have h := (c4_compressed_depth_dequantization 1 0 [.fin 500, .fin 0] 0 500
      (by decide)).1 (by norm_num) (by norm_num)
    rw [h]
    congr 1
    norm_num
  · exact ((c4_compressed_depth_dequantization 1 0 [.fin 500, .fin 0] 1 0
      (by decide)).2.2 rfl (by decide)).2

end Ros2Graph

namespace Ros2Graph

/-! ### C7 -/

lemma valueListTrunc_eq_mapM_take (env : Env) (k : Nat) (xs : List Value) :
    valueListTrunc env k xs = (xs.take k).mapM (value_to_json_safe env) := by
  induction xs generalizing k with
  | nil =>
      simp only [valueListTrunc, List.take_nil]
      rfl
  | cons v rest ih =>
      cases k with
      | zero =>
          simp only [valueListTrunc, List.take_zero]
          rfl
      | succ k2 =>
          simp only [valueListTrunc, List.take_succ_cons, List.mapM_cons, ih]
          cases value_to_json_safe env v with
          | error e => rfl
          | ok j =>
              cases (rest.take k2).mapM (value_to_json_safe env) with
              | error e => rfl
              | ok r => rfl

/-- C7: byte sequences longer than 256 become a size placeholder string
(array-typed numeric fields likewise); lists longer than 200 become their
first 200 converted elements plus a trailing "N more items" marker;
non-finite floats become their string form; every other primitive passes
through unchanged. -/
theorem c7_generic_fallback (env : Env) :
    (∀ bs : List Nat, 256 < bs.length →
       value_to_json_safe env (.vbytes bs) =
         .ok (.js ("<binary: " ++ toString bs.length ++ " bytes>")))
    ∧ (∀ xs : List Int, 256 < xs.length →
       value_to_json_safe env (.varr xs) =
         .ok (.js ("<array[" ++ toString xs.length ++ "]>")))
    ∧ (∀ xs : List Value, 200 < xs.length →
       value_to_json_safe env (.vlist xs) =
         (do
           let js0 ← (xs.take 200).mapM (value_to_json_safe env)
           pure (.ja (js0 ++
             [.js ("... (" ++ toString (xs.length - 200) ++ " more items)")]))))
    ∧ value_to_json_safe env (.vfloat .inf) = .ok (.js "inf")
    ∧ value_to_json_safe env (.vfloat .ninf) = .ok (.js "-inf")
    ∧ value_to_json_safe env (.vfloat .nan) = .ok (.js "nan")
    ∧ (∀ q : ℚ, value_to_json_safe env (.vfloat (.fin q)) = .ok (.jq q))
    ∧ (∀ n : Int, value_to_json_safe env (.vint n) = .ok (.ji n))
    ∧ (∀ b : Bool, value_to_json_safe env (.vbool b) = .ok (.jb b))
    ∧ (∀ s : String, value_to_json_safe env (.vstr s) = .ok (.js s))
    ∧ value_to_json_safe env .vnull = .ok Json.null := by
  refine ⟨?_, ?_, ?_, ?_, ?_, ?_, ?_, ?_, ?_, ?_, ?_⟩
  · intro bs h
    simp only [value_to_json_safe]
    rw [if_pos h]
  · intro xs h
    simp only [value_to_json_safe]
    rw [if_pos h]
  · intro xs h
    simp only [value_to_json_safe]
    rw [if_pos h, valueListTrunc_eq_mapM_take]
    cases (xs.take 200).mapM (value_to_json_safe env) with
    | error e => rfl
    | ok js0 => rfl
  · simp [value_to_json_safe, FVal.reprStr]
  · simp [value_to_json_safe, FVal.reprStr]
  · simp [value_to_json_safe, FVal.reprStr]
  · intro q
    simp [value_to_json_safe]
  · intro n
    simp [value_to_json_safe]
  · intro b
    simp [value_to_json_safe]
  · intro s
    simp [value_to_json_safe]
  · simp [value_to_json_safe]

/-- A concrete environment with every oracle inert, for witnesses. -/
def envW : Env where
  pngDecode := fun _ => none
  colorMapJet := fun v => (v, v, v)
  colorMapTurbo := fun v => (v, v, v)
  jpegEncodeMapped := fun _ => .ok [1]
  jpegEncodeRaw := fun _ => .ok [1]
  cvtColor := fun _ px => px
  jpegEncodeImg := fun _ => .ok [1]
  hasNumpyCv2 := true
  hasCv2 := false
  hasNumpy := true
  sampleIndices := fun _ k => List.range k
  qcos := fun _ => 1
  qsin := fun _ => 0
  f32bytes := fun _ => [0, 0, 0, 0]

/-- Witness for C7 at a concrete oversized byte field and a NaN float. -/
theorem c7_generic_fallback_witness :
    value_to_json_safe envW (.vbytes (List.replicate 257 0)) =
      .ok (.js "<binary: 257 bytes>")
    ∧ value_to_json_safe envW (.vfloat .nan) = .ok (.js "nan") := by
  constructor
  · have h := (c7_generic_fallback envW).1 (List.replicate 257 0)
      (by rw [List.length_replicate]; omega)
    rw [h]
    congr 2
  · exact (c7_generic_fallback envW).2.2.2.2.2.1

end Ros2Graph

namespace Ros2Graph

/-! ### Structural lemmas about the pointcloud pipeline -/

lemma pcPairs_length (pc : PointCloud2Msg) (lst : List (List Nat × (FVal × FVal × FVal)))
    (h : pcPairs pc = .ok lst) : lst.length = pcRowCount pc := by
  simp only [pcPairs] at h
  cases hx : pcAxisCol pc (pcRows pc) "x" with
  | error e => simp only [hx] at h; simp at h
  | ok colx =>
    simp only [hx] at h
    cases hy : pcAxisCol pc (pcRows pc) "y" with
    | error e => simp only [hy] at h; simp at h
    | ok coly =>
      simp only [hy] at h
      cases hz : pcAxisCol pc (pcRows pc) "z" with
      | error e => simp only [hz] at h; simp at h
      | ok colz =>
        simp only [hz, Except.ok.injEq] at h
        subst h
        simp [pcRows]

lemma pc_filtered_of_validPairs (pc : PointCloud2Msg)
    (pairs : List (List Nat × (ℚ × ℚ × ℚ))) (h : pcValidPairs pc = .ok pairs) :
    pc_filtered pc = .ok (pairs.map Prod.snd) := by
  simp only [pc_filtered, h, Except.map_ok]

lemma pc_filtered_length (pc : PointCloud2Msg) (l : List (ℚ × ℚ × ℚ))
    (h : pc_filtered pc = .ok l) : l.length ≤ pcRowCount pc := by
  simp only [pc_filtered, pcValidPairs] at h
  cases hp : pcPairs pc with
  | error e => rw [hp] at h; simp [Except.map] at h
  | ok lst =>
      rw [hp] at h
      simp only [Except.map_ok, Except.ok.injEq] at h
      subst h
      rw [List.length_map]
      exact le_trans (List.length_filterMap_le _ _) (le_of_eq (pcPairs_length pc lst hp))

lemma pcDownsample_cases (env : Env) (mp : Nat) (positions : List (ℚ × ℚ × ℚ))
    (colors : List (Nat × Nat × Nat)) (pos2 : List (ℚ × ℚ × ℚ))
    (col2 : List (Nat × Nat × Nat)) (n2 : Nat)
    (h : pcDownsample env mp positions colors = .ok (pos2, col2, n2)) :
    (positions.length ≤ mp ∧ pos2 = positions ∧ n2 = positions.length) ∨
    (mp < positions.length ∧
     (env.sampleIndices positions.length mp).all (· < positions.length) = true ∧
     pos2 = (env.sampleIndices positions.length mp).map (fun i => positions.getD i (0, 0, 0)) ∧
     n2 = mp) := by
  simp only [pcDownsample] at h
  by_cases hlt : mp < positions.length
  · rw [if_pos hlt] at h
    right
    by_cases hall : (env.sampleIndices positions.length mp).all (· < positions.length)
    · rw [if_pos hall] at h
      simp only [Except.ok.injEq, Prod.mk.injEq] at h
      exact ⟨hlt, hall, h.1.symm, h.2.2.symm⟩
    · rw [if_neg hall] at h
      simp at h
  · rw [if_neg hlt] at h
    left
    simp only [Except.ok.injEq, Prod.mk.injEq] at h
    push_neg at hlt
    exact ⟨hlt, h.1.symm, h.2.2.symm⟩

lemma extract_pc_ok (env : Env) (pc : PointCloud2Msg) (mp : Nat) (r : PCResult)
    (h : extract_pointcloud_data env pc mp = some r) :
    ∃ l colors, pc_filtered pc = .ok l ∧
      pcDownsample env mp l colors = .ok (r.positions, r.colors, r.num_points) := by
  have hb : extract_pointcloud_body env pc mp = .ok (some r) := by
    unfold extract_pointcloud_data at h
    cases hx : extract_pointcloud_body env pc mp <;> rw [hx] at h <;> simp at h
    rw [h]
  rw [extract_pointcloud_body] at hb
  split at hb
  · simp at hb
  split at hb
  · simp at hb
  split at hb
  · simp at hb
  split at hb
  · simp at hb
  cases hvp : pcValidPairs pc with
  | error e => simp only [hvp] at hb; simp at hb
  | ok pairs =>
      simp only [hvp] at hb
      split at hb
      · simp at hb
      cases hc : pcColors env pc (pairs.map Prod.fst) (pairs.map Prod.snd) with
      | error e => simp only [hc] at hb; simp at hb
      | ok colors =>
          simp only [hc] at hb
          cases hd : pcDownsample env mp (pairs.map Prod.snd) colors with
          | error e => simp only [hd] at hb; simp at hb
          | ok trip =>
              obtain ⟨pos2, col2, n2⟩ := trip
              simp only [hd, Except.ok.injEq, Option.some.injEq] at hb
              subst hb
              exact ⟨pairs.map Prod.snd, colors,
                pc_filtered_of_validPairs pc pairs hvp, by simpa using hd⟩

lemma extract_ls_ok (env : Env) (scan : LaserScanMsg) (mp : Nat) (r : PCResult)
    (h : extract_laserscan_data env scan mp = some r) :
    ∃ colors, pcDownsample env mp (ls_positions env scan) colors =
      .ok (r.positions, r.colors, r.num_points) := by
  have hb : extract_laserscan_body env scan mp = .ok (some r) := by
    unfold extract_laserscan_data at h
    cases hx : extract_laserscan_body env scan mp <;> rw [hx] at h <;> simp at h
    rw [h]
  rw [extract_laserscan_body] at hb
  split at hb
  · simp at hb
  split at hb
  · simp at hb
  cases hd : pcDownsample env mp (ls_positions env scan)
      (ls_colors env scan ((ls_filtered scan).map Prod.fst)
        (ls_positions env scan).length) with
  | error e => simp only [hd] at hb; simp at hb
  | ok trip =>
      obtain ⟨pos2, col2, n2⟩ := trip
      simp only [hd, Except.ok.injEq, Option.some.injEq] at hb
      subst hb
      exact ⟨_, by simpa using hd⟩

end Ros2Graph

namespace Ros2Graph

/-! ### C5 -/

/-- C5: when the payload is shorter than declared, the declared count
`width*height` is clipped to `floor(payloadBytes / pointStride)` before any
position is extracted, and every decoded point count (filtered positions
and the emitted `num_points`) is bounded by that clip. -/
theorem c5_pointcloud_payload_clipping (env : Env) (pc : PointCloud2Msg)
    (h : pc.data.length < pc.width * pc.height * pc.point_step) :
    pcRowCount pc = pc.data.length / pc.point_step
    ∧ (∀ l, pc_filtered pc = .ok l → l.length ≤ pc.data.length / pc.point_step)
    ∧ (∀ r, extract_pointcloud_data env pc = some r →
        r.num_points ≤ pc.data.length / pc.point_step) := by
  have hstep : 0 < pc.point_step := by
    rcases Nat.eq_zero_or_pos pc.point_step with h0 | h0
    · rw [h0, Nat.mul_zero] at h
      omega
    · exact h0
  have hdiv : pc.data.length / pc.point_step < pc.width * pc.height :=
    (Nat.div_lt_iff_lt_mul hstep).mpr h
  have hrc : pcRowCount pc = pc.data.length / pc.point_step := by
    unfold pcRowCount
    rw [if_pos hdiv]
  refine ⟨hrc, ?_, ?_⟩
  · intro l hl
    exact hrc ▸ pc_filtered_length pc l hl
  · intro r hr
    obtain ⟨l, colors, hl, hd⟩ := extract_pc_ok env pc 150000 r hr
    have hlen := pc_filtered_length pc l hl
    rw [hrc] at hlen
    rcases pcDownsample_cases env 150000 l colors _ _ _ hd with
      ⟨hle, _, hn⟩ | ⟨hlt, _, _, hn⟩
    · omega
    · omega

/-- The concrete pointcloud for the C5/C6 witnesses: 2 declared points,
a single int32 "x" field, but only 6 payload bytes for a 4-byte stride. -/
def pcW : PointCloud2Msg where
  height := 1
  width := 2
  fields := [{ name := "x", offset := 0, datatype := 5, count := 1 }]
  point_step := 4
  row_step := 8
  is_dense := true
  data := [1, 0, 0, 0, 0, 0]

/-- The result the pipeline produces on `pcW` under `envW`. -/
def pcRW : PCResult where
  positions := [(1, (0, 0))]
  colors := [(128, (127, 128))]
  num_points := 1
  bounds_min := (1, (0, 0))
  bounds_max := (1, (0, 0))

lemma pc_filtered_pcW_eval : pc_filtered pcW = Except.ok [(1, (0, 0))] := by
  have hx : pcFieldLookup pcW "x" = some (0, NpDtype.i32) := by decide
  have hy : pcFieldLookup pcW "y" = none := by decide
  have hz : pcFieldLookup pcW "z" = none := by decide
  have hrows : pcRows pcW = [[1, 0, 0, 0]] := by decide
  have hstep : pcW.point_step = 4 := rfl
  norm_num [pc_filtered, pcValidPairs, pcPairs, pcAxisCol, hrows, hstep,
    hx, hy, hz, dtypeSize, readDtype, decodeIntLE, leNat,
    finTriple, List.range_succ, Except.map, List.filterMap_cons, List.filterMap_nil]

lemma pcValidPairs_pcW_eval :
    pcValidPairs pcW = Except.ok [([1, 0, 0, 0], (1, (0, 0)))] := by
  have hx : pcFieldLookup pcW "x" = some (0, NpDtype.i32) := by decide
  have hy : pcFieldLookup pcW "y" = none := by decide
  have hz : pcFieldLookup pcW "z" = none := by decide
  have hrows : pcRows pcW = [[1, 0, 0, 0]] := by decide
  have hstep : pcW.point_step = 4 := rfl
  norm_num [pcValidPairs, pcPairs, pcAxisCol, hrows, hstep,
    hx, hy, hz, dtypeSize, readDtype, decodeIntLE, leNat,
    finTriple, List.range_succ, Except.map, List.filterMap_cons, List.filterMap_nil]

lemma extract_pcW_eval : extract_pointcloud_data envW pcW = some pcRW := by
  have hrgb : pcFieldLookup pcW "rgb" = none := by decide
  have hrgba : pcFieldLookup pcW "rgba" = none := by decide
  have hr : pcFieldLookup pcW "r" = none := by decide
  have hg : pcFieldLookup pcW "g" = none := by decide
  have hb : pcFieldLookup pcW "b" = none := by decide
  have hint : pcFieldLookup pcW "intensity" = none := by decide
  have hcol : pcColors envW pcW [[1, 0, 0, 0]] [(1, (0, 0))] =
      Except.ok [(128, (127, 128))] := by
    norm_num [pcColors, hrgb, hrgba, hr, hg, hb, hint, envW, listMin, listMax,
      ratToU8clip]
  have hds : pcDownsample envW 150000 [((1 : ℚ), ((0 : ℚ), (0 : ℚ)))]
      [(128, (127, 128))] = Except.ok ([(1, (0, 0))], [(128, (127, 128))], 1) := by
    norm_num [pcDownsample]
  have hrc : pcRowCount pcW = 1 := by decide
  simp only [Prod.mk_zero_zero] at hcol hds
  have hg0 : envW.hasNumpy = true := rfl
  have hg1 : pcW.width * pcW.height = 2 := rfl
  have hg2 : pcW.point_step = 4 := rfl
  norm_num [extract_pointcloud_data, extract_pointcloud_body, hg0, hg1, hg2, hrc,
    pcValidPairs_pcW_eval, hcol, hds, boundsOf, listMin, listMax, pcRW]

/-- Witness for C5: the 6-byte payload clips the declared 2 points to 1
(6 / 4 = 1 row), and the emitted point count respects the bound. -/
theorem c5_pointcloud_payload_clipping_witness :
    pcW.data.length < pcW.width * pcW.height * pcW.point_step
    ∧ pcRowCount pcW = pcW.data.length / pcW.point_step
    ∧ pcRW.num_points ≤ pcW.data.length / pcW.point_step :=
  ⟨by decide,
   (c5_pointcloud_payload_clipping envW pcW (by decide)).1,
   (c5_pointcloud_payload_clipping envW pcW (by decide)).2.2 pcRW extract_pcW_eval⟩

/-! ### C6 -/

/-- C6: under the guarantee `np.random.choice(n, k, replace=False)`
provides (k distinct indices below n), both extraction pipelines emit at
most 150000 points, and when downsampling happens the emitted positions
are index-selected members of the originally decoded valid positions —
a subset, not a truncation. -/
theorem c6_downsampling_cap_and_subset (env : Env) (hs : samplerValid env) :
    (∀ pc l r, pc_filtered pc = .ok l → extract_pointcloud_data env pc = some r →
       r.positions.length ≤ 150000 ∧ r.num_points ≤ 150000 ∧
       ∀ p ∈ r.positions, p ∈ l)
    ∧ (∀ scan r, extract_laserscan_data env scan = some r →
       r.positions.length ≤ 150000 ∧ r.num_points ≤ 150000 ∧
       ∀ p ∈ r.positions, p ∈ ls_positions env scan) := by
  have key : ∀ (positions : List (ℚ × ℚ × ℚ)) (colors : List (Nat × Nat × Nat))
      (pos2 : List (ℚ × ℚ × ℚ)) (col2 : List (Nat × Nat × Nat)) (n2 : Nat),
      pcDownsample env 150000 positions colors = .ok (pos2, col2, n2) →
      pos2.length ≤ 150000 ∧ n2 ≤ 150000 ∧ ∀ p ∈ pos2, p ∈ positions := by
    intro positions colors pos2 col2 n2 hd
    rcases pcDownsample_cases env 150000 positions colors _ _ _ hd with
      ⟨hle, hpos, hn⟩ | ⟨hlt, hall, hpos, hn⟩
    · subst hpos
      subst hn
      exact ⟨hle, hle, fun p hp => hp⟩
    · have hsl := hs positions.length 150000 (le_of_lt hlt)
      subst hpos
      subst hn
      refine ⟨?_, le_refl _, ?_⟩
      · rw [List.length_map, hsl.1]
      · intro p hp
        rw [List.mem_map] at hp
        obtain ⟨i, hi, hpe⟩ := hp
        have hilt : i < positions.length := by
          have hx := List.all_eq_true.mp hall i hi
          simpa using hx
        rw [← hpe, List.getD_eq_getElem?_getD, List.getElem?_eq_getElem hilt]
        simp only [Option.getD_some]
        exact List.getElem_mem hilt
  constructor
  · intro pc l r hl hr
    obtain ⟨l2, colors, hl2, hd⟩ := extract_pc_ok env pc 150000 r hr
    have heq : l = l2 := by
      rw [hl] at hl2
      exact (Except.ok.injEq _ _).mp hl2
    subst heq
    exact key l colors _ _ _ hd
  · intro scan r hr
    obtain ⟨colors, hd⟩ := extract_ls_ok env scan 150000 r hr
    exact key (ls_positions env scan) colors _ _ _ hd

/-- Witness for C6: the concrete sampler `List.range` satisfies the
sampler guarantee, and the concrete pipeline run stays below the cap with
its emitted position among the decoded ones. -/
theorem c6_downsampling_cap_and_subset_witness :
    extract_pointcloud_data envW pcW = some pcRW
    ∧ pcRW.positions.length ≤ 150000 ∧ pcRW.num_points ≤ 150000
    ∧ ((1 : ℚ), ((0 : ℚ), (0 : ℚ))) ∈ [((1 : ℚ), ((0 : ℚ), (0 : ℚ)))] := by
  have hs : samplerValid envW := by
    intro n k hk
    constructor
    · simp [envW]
    · intro i hi
      simp [envW, List.mem_range] at hi
      omega
  have h := (c6_downsampling_cap_and_subset envW hs).1 pcW [(1, (0, 0))] pcRW
    pc_filtered_pcW_eval extract_pcW_eval
  exact ⟨extract_pcW_eval, h.1, h.2.1, h.2.2 _ (by simp [pcRW])⟩

end Ros2Graph

namespace Ros2Graph

/-! ### Totality of the transcoder: no branch lets an exception escape -/

mutual

theorem mtd_ok (env : Env) (m : RosMsg) : ∃ j, message_to_dict env m = .ok j := by
  cases m with
  | compressedImage fmt data hdr =>
      obtain ⟨hfs, hh⟩ := gf_ok env hdr
      simp only [message_to_dict, hh]
      cases compressed_image_body env fmt data (.jo hfs) <;> exact ⟨_, rfl⟩
  | rawImage enc w h step data hdr =>
      obtain ⟨hfs, hh⟩ := gf_ok env hdr
      simp only [message_to_dict, hh]
      cases raw_image_body env enc w h step data (.jo hfs) <;> exact ⟨_, rfl⟩
  | pointCloud2 pc hdr =>
      obtain ⟨hfs, hh⟩ := gf_ok env hdr
      simp only [message_to_dict, hh]
      cases extract_pointcloud_data env pc <;> exact ⟨_, rfl⟩
  | laserScan scan hdr =>
      obtain ⟨hfs, hh⟩ := gf_ok env hdr
      simp only [message_to_dict, hh]
      cases extract_laserscan_data env scan <;> exact ⟨_, rfl⟩
  | generic fields =>
      obtain ⟨fs, hh⟩ := gf_ok env fields
      simp only [message_to_dict, hh]
      exact ⟨_, rfl⟩
termination_by sizeOf m

theorem gf_ok (env : Env) (fs : List (String × Value)) :
    ∃ l, genericFields env fs = .ok l := by
  cases fs with
  | nil =>
      simp only [genericFields]
      exact ⟨[], rfl⟩
  | cons p rest =>
      obtain ⟨n, v⟩ := p
      obtain ⟨j, hv⟩ := vjs_ok env v
      obtain ⟨r, hr⟩ := gf_ok env rest
      simp only [genericFields, hv, hr]
      exact ⟨_, rfl⟩
termination_by sizeOf fs

theorem vjs_ok (env : Env) (v : Value) : ∃ j, value_to_json_safe env v = .ok j := by
  cases v with
  | vmsg m =>
      simp only [value_to_json_safe]
      exact mtd_ok env m
  | vbytes bs =>
      simp only [value_to_json_safe]
      split <;> exact ⟨_, rfl⟩
  | varr xs =>
      simp only [value_to_json_safe]
      split <;> exact ⟨_, rfl⟩
  | vlist xs =>
      simp only [value_to_json_safe]
      by_cases hl : 200 < xs.length
      · obtain ⟨js0, hjs⟩ := vlt_ok env 200 xs
        rw [if_pos hl, hjs]
        exact ⟨_, rfl⟩
      · obtain ⟨js0, hjs⟩ := vlt_ok env xs.length xs
        rw [if_neg hl, hjs]
        exact ⟨_, rfl⟩
  | vfloat f => cases f <;> simp only [value_to_json_safe] <;> exact ⟨_, rfl⟩
  | vint n =>
      simp only [value_to_json_safe]
      exact ⟨_, rfl⟩
  | vstr s =>
      simp only [value_to_json_safe]
      exact ⟨_, rfl⟩
  | vbool b =>
      simp only [value_to_json_safe]
      exact ⟨_, rfl⟩
  | vnull =>
      simp only [value_to_json_safe]
      exact ⟨_, rfl⟩
termination_by sizeOf v

theorem vlt_ok (env : Env) (k : Nat) (xs : List Value) :
    ∃ l, valueListTrunc env k xs = .ok l := by
  cases xs with
  | nil =>
      simp only [valueListTrunc]
      exact ⟨[], rfl⟩
  | cons v rest =>
      cases k with
      | zero =>
          simp only [valueListTrunc]
          exact ⟨[], rfl⟩
      | succ k2 =>
          obtain ⟨j, hv⟩ := vjs_ok env v
          obtain ⟨r, hr⟩ := vlt_ok env k2 rest
          simp only [valueListTrunc, hv, hr]
          exact ⟨_, rfl⟩
termination_by sizeOf xs

end

end Ros2Graph

namespace Ros2Graph

/-! ### C1 (corrected)

The claim as stated fails: a PointCloud2 (or LaserScan) whose payload fails
to decode transcodes to the metadata-only result, which carries no failure
reason.  The no-exception half and the image-path diagnostics hold. -/

/-- A malformed pointcloud: `point_step = 0` makes `len(raw) // point_step`
raise ZeroDivisionError inside the extraction helper. -/
def badPC : PointCloud2Msg where
  height := 1
  width := 1
  fields := []
  point_step := 0
  row_step := 0
  is_dense := true
  data := [0, 0, 0, 0]

lemma extract_badPC_eval : extract_pointcloud_data envW badPC = none := by
  have hg0 : envW.hasNumpy = true := rfl
  have hg1 : badPC.width * badPC.height = 1 := rfl
  have hg2 : badPC.point_step = 0 := rfl
  norm_num [extract_pointcloud_data, extract_pointcloud_body, hg0, hg1, hg2]

/-- C1 counterexample: a decode failure (malformed PointCloud2 payload)
whose transcoded result carries no failure reason at all. -/
theorem c1_counterexample_pointcloud_failure_without_reason :
    extract_pointcloud_data envW badPC = none
    ∧ message_to_dict envW (.pointCloud2 badPC []) = .ok (.jo (pcBase badPC (.jo [])))
    ∧ jsonLookup (.jo (pcBase badPC (.jo []))) "error" = none
    ∧ jsonLookup (.jo (pcBase badPC (.jo []))) "positions" = none := by
  have hgf : genericFields envW [] = Except.ok [] := by
    simp only [genericFields]
  refine ⟨extract_badPC_eval, ?_, rfl, rfl⟩
  simp only [message_to_dict, hgf, extract_badPC_eval]

/-- C1 (amended): transcoding is total — every message yields a JSON-safe
result and no exception escapes `_message_to_dict`; the image decode
failure modes (undecodable compressed-depth payload, missing numpy/cv2
dependency in the compressed-depth branch, missing numpy dependency in the
raw-image branch, and — when numpy is available — an unsupported raw-image
encoding) yield diagnostic results carrying the failure reason; a
point-cloud or range-scan whose payload fails to decode yields the
metadata-only result, which carries no failure-reason text. -/
theorem c1_transcoder_no_exception_and_diagnostics :
    (∀ (env : Env) (m : RosMsg), ∃ j, message_to_dict env m = .ok j)
    ∧ (∀ (env : Env) (fmt : String) (data : List Nat) (hdr : List (String × Value)),
        data.length ≠ 0 →
        strContainsSub (strLower fmt) "jpeg" = false →
        strContainsSub (strLower fmt) "jpg" = false →
        strContainsSub (strLower fmt) "compresseddepth" = true →
        env.hasNumpyCv2 = true →
        12 < data.length →
        env.pngDecode (data.drop 12) = none →
        message_to_dict env (.compressedImage fmt data hdr) =
          .ok (image_meta_err fmt data.length
            "Failed to decode compressedDepth PNG payload")
        ∧ jsonLookup (image_meta_err fmt data.length
            "Failed to decode compressedDepth PNG payload") "error" =
          some (.js "Failed to decode compressedDepth PNG payload"))
    ∧ (∀ (env : Env) (fmt : String) (data : List Nat) (hdr : List (String × Value)),
        data.length ≠ 0 →
        strContainsSub (strLower fmt) "jpeg" = false →
        strContainsSub (strLower fmt) "jpg" = false →
        strContainsSub (strLower fmt) "compresseddepth" = true →
        env.hasNumpyCv2 = false →
        message_to_dict env (.compressedImage fmt data hdr) =
          .ok (image_meta_err fmt data.length
            "Cannot render compressedDepth: numpy/cv2 not available"))
    ∧ (∀ (env : Env) (enc : String) (w h step : Nat) (data : List Nat)
         (hdr : List (String × Value)),
        env.hasNumpy = true →
        enc_map enc = none →
        ∃ j, message_to_dict env (.rawImage enc w h step data hdr) = .ok j
          ∧ jsonLookup j "error" = some (.js ("Unsupported encoding: " ++ enc)))
    ∧ (∀ (env : Env) (enc : String) (w h step : Nat) (data : List Nat)
         (hdr : List (String × Value)),
        env.hasNumpy = false →
        message_to_dict env (.rawImage enc w h step data hdr) =
          .ok (raw_image_meta_err enc w h "No module named numpy")
        ∧ jsonLookup (raw_image_meta_err enc w h "No module named numpy") "error" =
          some (.js "No module named numpy"))
    ∧ (∀ (env : Env) (pc : PointCloud2Msg) (hdr : List (String × Value)),
        extract_pointcloud_data env pc = none →
        ∃ hfs, genericFields env hdr = .ok hfs
          ∧ message_to_dict env (.pointCloud2 pc hdr) = .ok (.jo (pcBase pc (.jo hfs)))
          ∧ jsonLookup (.jo (pcBase pc (.jo hfs))) "error" = none)
    ∧ (∀ (env : Env) (scan : LaserScanMsg) (hdr : List (String × Value)),
        extract_laserscan_data env scan = none →
        ∃ hfs, genericFields env hdr = .ok hfs
          ∧ message_to_dict env (.laserScan scan hdr) = .ok (.jo (lsBase scan (.jo hfs)))
          ∧ jsonLookup (.jo (lsBase scan (.jo hfs))) "error" = none) := by
  refine ⟨mtd_ok, ?_, ?_, ?_, ?_, ?_, ?_⟩
  · intro env fmt data hdr h1 h2 h3 h4 h5 h6 h7
    obtain ⟨hfs, hh⟩ := gf_ok env hdr
    constructor
    · simp only [message_to_dict, hh]
      simp only [compressed_image_body, h2, h3, h4]
      rw [if_neg h1]
      simp only [Bool.or_self, Bool.false_or, Bool.true_or, if_false, if_true]
      simp only [compressed_depth_body, h5, h7]
      rw [if_neg (by omega : ¬ data.length ≤ 12)]
      simp
    · rfl
  · intro env fmt data hdr h1 h2 h3 h4 h5
    obtain ⟨hfs, hh⟩ := gf_ok env hdr
    simp only [message_to_dict, hh]
    simp only [compressed_image_body, h2, h3, h4]
    rw [if_neg h1]
    simp only [Bool.or_self, Bool.false_or, Bool.true_or, if_false, if_true]
    simp only [compressed_depth_body, h5]
    simp
  · intro env enc w h step data hdr hnp henc
    obtain ⟨hfs, hh⟩ := gf_ok env hdr
    refine ⟨Json.jo [("_msg_type", .js "image_metadata"), ("encoding", .js enc),
      ("width", .ji (w : Int)), ("height", .ji (h : Int)), ("step", .ji (step : Int)),
      ("error", .js ("Unsupported encoding: " ++ enc))], ?_, rfl⟩
    simp only [message_to_dict, hh]
    simp only [raw_image_body, hnp, henc]
    simp
  · intro env enc w h step data hdr hnp
    obtain ⟨hfs, hh⟩ := gf_ok env hdr
    refine ⟨?_, rfl⟩
    simp only [message_to_dict, hh]
    simp only [raw_image_body, hnp]
    simp
  · intro env pc hdr hext
    obtain ⟨hfs, hh⟩ := gf_ok env hdr
    refine ⟨hfs, hh, ?_, rfl⟩
    simp only [message_to_dict, hh, hext]
  · intro env scan hdr hext
    obtain ⟨hfs, hh⟩ := gf_ok env hdr
    refine ⟨hfs, hh, ?_, rfl⟩
    simp only [message_to_dict, hh, hext]

/-- Witness for C1 (amended): a compressed-depth payload whose PNG part
cv2 fails to decode yields the diagnostic metadata result with its reason. -/
theorem c1_transcoder_no_exception_and_diagnostics_witness :
    message_to_dict envW
        (.compressedImage "32FC1; compressedDepth png" (List.replicate 13 0) []) =
      .ok (image_meta_err "32FC1; compressedDepth png" 13
        "Failed to decode compressedDepth PNG payload")
    ∧ jsonLookup (image_meta_err "32FC1; compressedDepth png" 13
        "Failed to decode compressedDepth PNG payload") "error" =
      some (.js "Failed to decode compressedDepth PNG payload") := by
  have h := c1_transcoder_no_exception_and_diagnostics.2.1 envW
    "32FC1; compressedDepth png" (List.replicate 13 0) []
    (by simp) (by decide) (by decide) (by decide) rfl (by simp) rfl
  constructor
  · have h1 := h.1
    simpa using h1
  · rfl

end Ros2Graph
